import Mathlib

/-!
Shallow embedding of the lift motion controller in `src/sensorproxy/lift.py`
(class `Lift`), together with theorems settling the specification claims
about it.

Modelling conventions:
* Wall-clock time is a natural-number counter `now`, one unit per control-loop
  tick (the source paces the loop with `update_interval_s`; the counter
  abstracts that pacing:  `time.time()` readings become `now`, `time.sleep`
  until the next tick becomes `now + 1`).  Durations stay exact rationals, so
  the source's float durations (`300.0`, `0.5`, `1`) keep their values and the
  deadline test `ride_start_ts + moving_time_s < time.time()` is the exact
  comparison `(start : ℚ) + dur < now`.
* Heights and speeds are rationals / integers (`float` / `int` in the source).
* The outside world (GPIO hall sensors, the charging indicator, datagram
  delivery and send success, WiFi join success) is an oracle `Env` indexed by
  time.  A received datagram is modelled post-`str.split()` as its list of
  whitespace-separated tokens; `int(s)` becomes `String.toInt?`.
* Python exceptions become the `LiftErr` sum: `_MovingException` is `.moving`,
  `LiftConnectionException` is `.conn`, an uncaught `ValueError` (from tuple
  unpacking or `int()`) is `.valueErr`, an uncaught `TypeError` (arithmetic on
  `None`) is `.typeErr`, `WiFiConnectionError` is `.wifi`.  `.fuel` is a
  modelling artifact only: it cuts off the one source-level `while` loop with
  no bound (the bump loop at lift.py:395) when the given fuel runs out.
* Stateful methods return `Option LiftErr × LiftState` (raised-or-not plus the
  mutated state) or `Res α` (normal return value plus state, or a propagating
  exception plus state).
* The ghost fields `sent` (datagrams actually passed to `sock.sendto`) and
  `episodes` (one entry per `_move` call, mirroring the `logger.info` line at
  lift.py:273-274) record observable activity; no source logic reads them.
-/

namespace Sensorproxy

/-- Oracle for everything outside the `Lift` object, indexed by tick time:
GPIO reads (lift.py:158, 166, 174), whether `sock.sendto` succeeds
(lift.py:228), the WiFi join (lift.py:119), and the tokenised datagrams a
`_recv_responses` drain at that time yields (lift.py:245). -/
structure Env where
  hallBottom : Nat → Bool
  hallTop : Nat → Bool
  charging : Nat → Bool
  sendOk : Nat → Bool
  wifiOk : Bool
  resps : Nat → List (List String)

/-- The immutable constructor parameters of `Lift.__init__` (lift.py:26-81)
that the modelled methods consult.  `chargingPin = none` models
`charging_incicator_pin == None` (lift.py:374). -/
structure Config where
  height : ℚ
  timeoutS : ℚ
  travelMargin : ℚ
  chargingPin : Option Nat
  dockingRetries : Nat
  dockingDelay : Nat
deriving DecidableEq

/-- The mutable attributes of a `Lift` object (lift.py:83-92) plus the clock
and the two ghost logs. -/
structure LiftState where
  timeUp : Option ℚ
  timeDown : Option ℚ
  currentHeightM : Option ℚ
  lockHeld : Bool
  sockOpen : Bool
  currentSpeed : Option Int
  lastResponseTs : Option Nat
  now : Nat
  sent : List (Nat × Int)
  episodes : List (Int × ℚ)
deriving DecidableEq

/-- Python exceptions reaching or crossing `Lift` method boundaries. -/
inductive LiftErr where
  | moving
  | conn
  | valueErr
  | typeErr
  | wifi
  | fuel
deriving DecidableEq

/-- Result of a method that returns a value of type `α`: normal return with
the final state, or a propagating exception with the state at raise time. -/
inductive Res (α : Type) where
  | ok : α → LiftState → Res α
  | exc : LiftErr → LiftState → Res α
deriving DecidableEq

def Res.state {α : Type} : Res α → LiftState
  | .ok _ st => st
  | .exc _ st => st

def Res.isOk {α : Type} : Res α → Bool
  | .ok _ _ => true
  | .exc _ _ => false

def Res.val? {α : Type} : Res α → Option α
  | .ok v _ => some v
  | .exc _ _ => none

/-- `Lift._check_limits` (lift.py:177-194): positive speed with the top hall
sensor active, or negative speed with the bottom hall sensor active, sets the
height estimate to the corresponding extreme and raises `_MovingException`. -/
def checkLimits (env : Env) (cfg : Config) (speed : Int) (st : LiftState) :
    Option LiftErr × LiftState :=
  if 0 < speed ∧ env.hallTop st.now then
    (some .moving, {st with currentHeightM := some cfg.height})
  else if speed < 0 ∧ env.hallBottom st.now then
    (some .moving, {st with currentHeightM := some 0})
  else
    (none, st)

/-- `Lift._check_timeout` (lift.py:196-209): raises `LiftConnectionException`
when the last acknowledgement is older than `timeout_s`. -/
def checkTimeout (cfg : Config) (st : LiftState) : Option LiftErr × LiftState :=
  match st.lastResponseTs with
  | none => (none, st)
  | some ts =>
    if ((st.now - ts : Nat) : ℚ) > cfg.timeoutS then (some .conn, st) else (none, st)

/-- `Lift._send_speed` (lift.py:211-231): connection check, then the limit
check, then the actual `sendto` (recorded in the `sent` ghost log; a failing
send raises `LiftConnectionException`). -/
def sendSpeed (env : Env) (cfg : Config) (speed : Int) (st : LiftState) :
    Option LiftErr × LiftState :=
  if !st.sockOpen then
    (some .conn, st)
  else
    match checkLimits env cfg speed st with
    | (some e, st1) => (some e, st1)
    | (none, st1) =>
      if env.sendOk st1.now then
        (none, {st1 with sent := st1.sent ++ [(st1.now, speed)]})
      else
        (some .conn, st1)

/-- The drain loop body of `Lift._recv_responses` (lift.py:243-260), applied
to the list of datagrams (already tokenised by `str.split()`) available this
tick.  A datagram that does not split into exactly two tokens, or a `set`
whose argument `int()` cannot parse, raises `ValueError` (uncaught in the
source); a two-token datagram with an unknown command raises
`LiftConnectionException`; `set <v>` records the acknowledged speed (a
mismatch with the requested speed is only logged, lift.py:255-257). -/
def processResponses (speedReq : Int) (ts : Nat) :
    List (List String) → LiftState → Option LiftErr × LiftState
  | [], st => (none, st)
  | r :: rs, st =>
    let st1 := {st with lastResponseTs := some ts}
    match r with
    | [cmd, sStr] =>
      if cmd = "set" then
        match sStr.toInt? with
        | some v =>
          let _ := speedReq ≠ v -- mismatch only logged (lift.py:255-257)
          processResponses speedReq ts rs {st1 with currentSpeed := some v}
        | none => (some .valueErr, st1)
      else
        (some .conn, st1)
    | _ => (some .valueErr, st1)

/-- `Lift._recv_responses` (lift.py:233-260): connection check, then drain
all datagrams pending at the current time. -/
def recvResponses (env : Env) (speedReq : Int) (st : LiftState) :
    Option LiftErr × LiftState :=
  if !st.sockOpen then
    (some .conn, st)
  else
    processResponses speedReq st.now (env.resps st.now) st

/-- Outcome of one iteration body of the `_move` loop (lift.py:288-298):
keep looping, break on `_MovingException`, or let an uncaught exception
propagate. -/
inductive TickRes where
  | cont : LiftState → TickRes
  | stop : LiftState → TickRes
  | crash : LiftErr → LiftState → TickRes
deriving DecidableEq

/-- The `except` clauses of the `_move` loop (lift.py:293-298) applied to one
operation's outcome: `_MovingException` breaks the loop (`.stop`),
`LiftConnectionException` is logged and the loop continues, any other
exception propagates uncaught (`.crash`); no exception continues with `k`. -/
def catchTick (r : Option LiftErr × LiftState) (k : LiftState → TickRes) : TickRes :=
  match r with
  | (some .moving, st1) => .stop st1
  | (some .conn, st1) => .cont st1
  | (some e, st1) => .crash e st1
  | (none, st1) => k st1

/-- The `try` block of one `_move` iteration (lift.py:288-298):
`_send_speed`, `_recv_responses`, `_check_timeout`, under the `except`
clauses modelled by `catchTick`. -/
def tickBody (env : Env) (cfg : Config) (speed : Int) (st : LiftState) : TickRes :=
  catchTick (sendSpeed env cfg speed st) fun st1 =>
    catchTick (recvResponses env speed st1) fun st2 =>
      catchTick (checkTimeout cfg st2) fun st3 => .cont st3

/-- How the `while True` loop of `_move` (lift.py:277-302) ended. -/
inductive MoveEnd where
  | deadline
  | limit
  | crash : LiftErr → MoveEnd
deriving DecidableEq

/-- Fuelled form of the `while True` loop of `_move` (lift.py:277-302).  Each
iteration first tests the deadline
`ride_start_ts + moving_time_s < time.time()` (lift.py:280), then runs the
tick body; the sleep to `next_loop_ts` (lift.py:278, 300-302) advances the
clock one tick per iteration.  The `fuel` argument only makes the recursion
structural (so that concrete runs reduce in the kernel); `moveLoop` below
supplies fuel that provably never runs out, making the `fuel = 0` fallback
dead code — see `moveLoop_eq`, which shows `moveLoop` satisfies exactly the
source loop's recurrence with no fuel in sight. -/
def moveLoopAux (env : Env) (cfg : Config) (speed : Int) (start : Nat) (dur : ℚ) :
    Nat → LiftState → MoveEnd × LiftState
  | fuel, st =>
    if (start : ℚ) + dur < (st.now : ℚ) then
      (.deadline, st)
    else
      match tickBody env cfg speed st with
      | .stop st1 => (.limit, st1)
      | .crash e st1 => (.crash e, st1)
      | .cont st1 =>
        match fuel with
        | 0 => (.deadline, st1)
        | f + 1 => moveLoopAux env cfg speed start dur f {st1 with now := st.now + 1}

/-- The `while True` loop of `_move` (lift.py:277-302); see `moveLoopAux` and
`moveLoop_eq`. -/
def moveLoop (env : Env) (cfg : Config) (speed : Int) (start : Nat) (dur : ℚ)
    (st : LiftState) : MoveEnd × LiftState :=
  moveLoopAux env cfg speed start dur (start + Int.toNat ⌊dur⌋ + 1 - st.now) st

/-- `Lift._move` (lift.py:262-311).  Records the episode in the ghost log
(the entry log line, lift.py:273), runs the loop, and — unless an uncaught
exception is propagating — runs the nested stop call `self._move(0, 1)`
(lift.py:307-308), clears `_last_response_ts`, and returns the elapsed
duration of the main loop (`ride_stop_ts - ride_start_ts`). -/
def move (env : Env) (cfg : Config) (speed : Int) (dur : ℚ) (st : LiftState) :
    Res ℚ :=
  let st0 : LiftState := {st with episodes := st.episodes ++ [(speed, dur)]}
  let start := st0.now
  match moveLoop env cfg speed start dur st0 with
  | (.crash e, st1) => .exc e st1
  | (_, st1) =>
    let elapsed : ℚ := ((st1.now - start : Nat) : ℚ)
    if speed = 0 then
      .ok elapsed {st1 with lastResponseTs := none}
    else
      let st2 : LiftState := {st1 with episodes := st1.episodes ++ [((0 : Int), (1 : ℚ))]}
      match moveLoop env cfg 0 st2.now 1 st2 with
      | (.crash e, st3) => .exc e st3
      | (_, st3) => .ok elapsed {st3 with lastResponseTs := none}

/-- The bump loop opening `Lift.calibrate` (lift.py:395-396):
`while self.hall_bottom: self._move(255, 1)`.  The source puts no bound on
this loop; `fuel` is the modelling cut-off (running out yields the artificial
`.fuel` exception, which no claim relies on). -/
def bumpLoop (env : Env) (cfg : Config) : Nat → LiftState → Res Unit
  | 0, st => .exc .fuel st
  | f + 1, st =>
    if env.hallBottom st.now then
      match move env cfg 255 1 st with
      | .exc e st1 => .exc e st1
      | .ok _ st1 => bumpLoop env cfg f st1
    else
      .ok () st

/-- `Lift.dock`'s retry loop (lift.py:377-387): sleep the configured delay,
check the charging indicator, and otherwise bump up for 0.5 s and down for
1 s before the next retry.  Exhausting the retries just returns. -/
def dockLoop (env : Env) (cfg : Config) : Nat → LiftState → Res Unit
  | 0, st => .ok () st
  | r + 1, st =>
    let st1 : LiftState := {st with now := st.now + cfg.dockingDelay}
    if env.charging st1.now then
      .ok () st1
    else
      match move env cfg 255 (1 / 2) st1 with
      | .exc e st2 => .exc e st2
      | .ok _ st2 =>
        match move env cfg (-255) 1 st2 with
        | .exc e st3 => .exc e st3
        | .ok _ st3 => dockLoop env cfg r st3

/-- `Lift.dock` (lift.py:373-387): nothing to do when no charging-indicator
pin is configured, else run the retry loop `charging_docking_retries`
times. -/
def dock (env : Env) (cfg : Config) (st : LiftState) : Res Unit :=
  match cfg.chargingPin with
  | none => .ok () st
  | some _ => dockLoop env cfg cfg.dockingRetries st

/-- `Lift.calibrate` (lift.py:389-412): bump upward while the bottom sensor
is active, descend (default `moving_time_s = 300.0` bound, lift.py:262), run
the up and down travels recording their elapsed times, and dock.  The derived
travel speeds (lift.py:407-408) are only logged. -/
def calibrate (env : Env) (cfg : Config) (fuel : Nat) (st : LiftState) : Res Unit :=
  match bumpLoop env cfg fuel st with
  | .exc e s => .exc e s
  | .ok _ s1 =>
    match move env cfg (-255) 300 s1 with
    | .exc e s => .exc e s
    | .ok _ s2 =>
      match move env cfg 255 300 s2 with
      | .exc e s => .exc e s
      | .ok tUp s3 =>
        let s3' : LiftState := {s3 with timeUp := some tUp}
        match move env cfg (-255) 300 s3' with
        | .exc e s => .exc e s
        | .ok tDown s4 =>
          let s4' : LiftState := {s4 with timeDown := some tDown}
          dock env cfg s4'

/-- The body of `Lift.move_to` after the calibration guard (lift.py:318-371):
already-there short-circuit, the two extreme branches, and the interior
dead-reckoning branch.  Arithmetic on an unset (`None`) calibration value is
Python's `TypeError`, modelled as `.typeErr`.  The final hall-sensor sanity
check (lift.py:362-369) only logs and is not reflected in the state. -/
def moveToMain (env : Env) (cfg : Config) (h : ℚ) (st : LiftState) : Res ℚ :=
  if st.currentHeightM = some h then
    .ok h st
  else if h ≥ cfg.height then
    match st.timeUp with
    | none => .exc .typeErr st
    | some tu =>
      match move env cfg 255 (tu + cfg.travelMargin) st with
      | .exc e s => .exc e s
      | .ok _ s => .ok cfg.height {s with currentHeightM := some cfg.height}
  else if h ≤ 0 then
    match st.timeDown with
    | none => .exc .typeErr st
    | some td =>
      match move env cfg (-255) (td + cfg.travelMargin) st with
      | .exc e s => .exc e s
      | .ok _ s =>
        match dock env cfg s with
        | .exc e s' => .exc e s'
        | .ok _ s' => .ok 0 {s' with currentHeightM := some 0}
  else
    match st.currentHeightM with
    | none => .exc .typeErr st
    | some c =>
      let d := h - c
      if d < 0 then
        match st.timeDown with
        | none => .exc .typeErr st
        | some td =>
          let sp : ℚ := -(cfg.height / td)
          match move env cfg (-255) (d / sp) st with
          | .exc e s => .exc e s
          | .ok _ s => .ok h {s with currentHeightM := some h}
      else
        match st.timeUp with
        | none => .exc .typeErr st
        | some tu =>
          let sp : ℚ := cfg.height / tu
          match move env cfg 255 (d / sp) st with
          | .exc e s => .exc e s
          | .ok _ s => .ok h {s with currentHeightM := some h}

/-- `Lift.move_to` (lift.py:313-371): calibrate first when the height
estimate is unset (lift.py:314-316), then run the main body. -/
def moveTo (env : Env) (cfg : Config) (fuel : Nat) (h : ℚ) (st : LiftState) :
    Res ℚ :=
  match st.currentHeightM with
  | none =>
    match calibrate env cfg fuel st with
    | .exc e s => .exc e s
    | .ok _ s => moveToMain env cfg h s
  | some _ => moveToMain env cfg h st

/-- `Lift.disconnect` (lift.py:141-153): close the socket, leave the WiFi
(external side effect) and release the mutual-exclusion lock. -/
def disconnect (st : LiftState) : LiftState :=
  {st with sockOpen := false, lockHeld := false}

/-- Fuelled form of the handshake poll of `Lift.connect` (lift.py:131-137):
`while self._current_speed == None`, raising after `timeout_s` — note the
source calls `self.disconnect()` before raising — and otherwise draining
responses.  The clock advances one tick per poll iteration.  As with
`moveLoopAux`, the fuel only makes the recursion structural and the `fuel = 0`
fallback is dead code under the fuel `connectPoll` supplies (see
`connectPoll_eq`). -/
def connectPollAux (env : Env) (start : Nat) (timeout : ℚ) :
    Nat → LiftState → Res Unit
  | fuel, st =>
    if st.currentSpeed ≠ none then
      .ok () st
    else if (start : ℚ) + timeout < (st.now : ℚ) then
      .exc .conn (disconnect st)
    else
      match recvResponses env 0 st with
      | (some e, s) => .exc e s
      | (none, s) =>
        match fuel with
        | 0 => .exc .conn (disconnect s)
        | f + 1 => connectPollAux env start timeout f {s with now := st.now + 1}

/-- The handshake poll of `Lift.connect` (lift.py:131-137); see
`connectPollAux` and `connectPoll_eq`. -/
def connectPoll (env : Env) (start : Nat) (timeout : ℚ) (st : LiftState) :
    Res Unit :=
  connectPollAux env start timeout (start + Int.toNat ⌊timeout⌋ + 1 - st.now) st

/-- `Lift.connect` (lift.py:103-139): acquire the lock, join the WiFi
(releasing the lock and propagating on failure), open the socket, send the
initial zero-speed command (a raise here propagates), then poll for the first
acknowledgement. -/
def connect (env : Env) (cfg : Config) (timeout : ℚ) (st : LiftState) :
    Res Unit :=
  let st1 : LiftState := {st with lockHeld := true}
  if env.wifiOk then
    let st2 : LiftState := {st1 with sockOpen := true}
    match sendSpeed env cfg 0 st2 with
    | (some e, s) => .exc e s
    | (none, s) => connectPoll env s.now timeout s
  else
    .exc .wifi {st1 with lockHeld := false}

/-- A tokenised datagram that `_recv_responses` survives without an uncaught
`ValueError`: exactly two tokens, and an `int()`-parseable argument whenever
the command token is `set`. -/
def goodResp : List String → Bool
  | [cmd, sStr] => if cmd = "set" then (sStr.toInt?).isSome else true
  | _ => false

/-- All datagrams the oracle ever delivers are structurally well-formed. -/
def WfResps (env : Env) : Prop :=
  ∀ t : Nat, ∀ r ∈ env.resps t, goodResp r = true

/-- The docking bump pattern the `dock` retry loop issues per retry (the two
`_move` calls at lift.py:386-387 and their nested stop episodes), repeated
`n` times. -/
def dockBumps : Nat → List (Int × ℚ)
  | 0 => []
  | n + 1 =>
    [((255 : Int), (1 / 2 : ℚ)), ((0 : Int), (1 : ℚ)),
     ((-255 : Int), (1 : ℚ)), ((0 : Int), (1 : ℚ))] ++ dockBumps n

/-- The datagrams `(t, v)` for `t = a, a + 1, ..., a + n - 1`: what a
movement loop passes to `sendto` when every send succeeds. -/
def sentRun (v : Int) : Nat → Nat → List (Nat × Int)
  | _, 0 => []
  | a, n + 1 => (a, v) :: sentRun v (a + 1) n

/-! ### Concrete fixtures for counterexamples and witnesses -/

/-- The source's default configuration (lift.py:26-42) with a 10 m lift:
`timeout_s = 0.5`, `travel_margin_s = 1.0`, charging pin 13, 3 docking
retries, 3 s docking delay. -/
def cfg0 : Config :=
  { height := 10, timeoutS := 1 / 2, travelMargin := 1, chargingPin := some 13,
    dockingRetries := 3, dockingDelay := 3 }

/-- `cfg0` without a charging-indicator pin. -/
def cfgNoPin : Config := {cfg0 with chargingPin := none}

/-- A freshly constructed `Lift` object's state (lift.py:83-92). -/
def st0 : LiftState :=
  { timeUp := none, timeDown := none, currentHeightM := none, lockHeld := false,
    sockOpen := false, currentSpeed := none, lastResponseTs := none, now := 0,
    sent := [], episodes := [] }

/-- `st0` after a successful connect (socket open, lock held). -/
def stConn : LiftState := {st0 with sockOpen := true, lockHeld := true}

/-- A connected, calibrated state resting at the bottom: 10 s travel time in
both directions. -/
def stCal : LiftState :=
  {stConn with currentHeightM := some 0, timeUp := some 10, timeDown := some 10}

/-- A quiet healthy world: no sensor active, sends succeed, WiFi joins, no
datagrams ever arrive. -/
def envQuiet : Env :=
  { hallBottom := fun _ => false, hallTop := fun _ => false,
    charging := fun _ => false, sendOk := fun _ => true, wifiOk := true,
    resps := fun _ => [] }

/-- Quiet world whose top limit sensor is permanently active. -/
def envTop : Env := {envQuiet with hallTop := fun _ => true}

/-- Quiet world with a permanently unreachable actuator link: every
`sock.sendto` raises `OSError`. -/
def envDead : Env := {envQuiet with sendOk := fun _ => false}

/-- Quiet world whose bottom limit sensor reads active until time 4 (long
enough for one calibration bump) and inactive afterwards. -/
def envBumpy : Env := {envQuiet with hallBottom := fun t => decide (t < 4)}

/-- Quiet world that delivers the single-token datagram `"set"` at time 0:
`"set".split()` has one element, so tuple unpacking raises `ValueError`. -/
def envShortResp : Env :=
  {envQuiet with resps := fun t => if t = 0 then [["set"]] else []}

/-- Quiet world that delivers the three-token datagram `"set 5 5"` at
time 0: tuple unpacking raises `ValueError`. -/
def envLongResp : Env :=
  {envQuiet with resps := fun t => if t = 0 then [["set", "5", "5"]] else []}

/-! ### The loop wrappers satisfy the source recurrences (the fuel is dead) -/

/-- If the deadline test of the source loop fails at an integer time, that
time is at most `start + ⌊dur⌋` (so at most `start + Int.toNat ⌊dur⌋`). -/
theorem now_le_of_not_deadline {start : Nat} {dur : ℚ} {n : Nat}
    (h : ¬((start : ℚ) + dur < (n : ℚ))) : n ≤ start + Int.toNat ⌊dur⌋ := by
  have h1 : (n : ℚ) ≤ (start : ℚ) + dur := not_lt.mp h
  have h3 : (n : ℤ) ≤ ⌊(start : ℚ) + dur⌋ := Int.le_floor.mpr (by push_cast; linarith)
  rw [Int.floor_nat_add] at h3
  have h4 : ⌊dur⌋ ≤ (Int.toNat ⌊dur⌋ : ℤ) := Int.self_le_toNat ⌊dur⌋
  omega

/-- One-step unfolding of `moveLoopAux` at positive fuel. -/
theorem moveLoopAux_succ (env : Env) (cfg : Config) (speed : Int) (start : Nat)
    (dur : ℚ) (f : Nat) (st : LiftState) :
    moveLoopAux env cfg speed start dur (f + 1) st =
      if (start : ℚ) + dur < (st.now : ℚ) then
        (.deadline, st)
      else
        match tickBody env cfg speed st with
        | .stop st1 => (.limit, st1)
        | .crash e st1 => (.crash e, st1)
        | .cont st1 => moveLoopAux env cfg speed start dur f {st1 with now := st.now + 1} := by
  conv_lhs => unfold moveLoopAux

/-- `moveLoop` satisfies exactly the recurrence of the `while True` loop of
`_move` (lift.py:277-302): deadline test, tick body, recurse at the next
tick.  In particular the fuel threaded through `moveLoopAux` never runs
out. -/
theorem moveLoop_eq (env : Env) (cfg : Config) (speed : Int) (start : Nat)
    (dur : ℚ) (st : LiftState) :
    moveLoop env cfg speed start dur st =
      if (start : ℚ) + dur < (st.now : ℚ) then
        (.deadline, st)
      else
        match tickBody env cfg speed st with
        | .stop st1 => (.limit, st1)
        | .crash e st1 => (.crash e, st1)
        | .cont st1 => moveLoop env cfg speed start dur {st1 with now := st.now + 1} := by
  by_cases h : (start : ℚ) + dur < (st.now : ℚ)
  · rw [if_pos h]
    show moveLoopAux env cfg speed start dur (start + Int.toNat ⌊dur⌋ + 1 - st.now) st = _
    unfold moveLoopAux
    rw [if_pos h]
  · rw [if_neg h]
    have hnow : st.now ≤ start + Int.toNat ⌊dur⌋ := now_le_of_not_deadline h
    have hf : start + Int.toNat ⌊dur⌋ + 1 - st.now =
        (start + Int.toNat ⌊dur⌋ + 1 - (st.now + 1)) + 1 := by omega
    show moveLoopAux env cfg speed start dur (start + Int.toNat ⌊dur⌋ + 1 - st.now) st = _
    rw [hf, moveLoopAux_succ, if_neg h]
    unfold moveLoop
    rfl

/-- `connectPoll` satisfies exactly the recurrence of the handshake poll of
`connect` (lift.py:131-137); the fuel threaded through `connectPollAux`
never runs out. -/
theorem connectPoll_eq (env : Env) (start : Nat) (timeout : ℚ) (st : LiftState) :
    connectPoll env start timeout st =
      if st.currentSpeed ≠ none then
        .ok () st
      else if (start : ℚ) + timeout < (st.now : ℚ) then
        .exc .conn (disconnect st)
      else
        match recvResponses env 0 st with
        | (some e, s) => .exc e s
        | (none, s) => connectPoll env start timeout {s with now := st.now + 1} := by
  by_cases hs : st.currentSpeed ≠ none
  · rw [if_pos hs]
    show connectPollAux env start timeout (start + Int.toNat ⌊timeout⌋ + 1 - st.now) st = _
    unfold connectPollAux
    rw [if_pos hs]
  · rw [if_neg hs]
    by_cases h : (start : ℚ) + timeout < (st.now : ℚ)
    · rw [if_pos h]
      show connectPollAux env start timeout (start + Int.toNat ⌊timeout⌋ + 1 - st.now) st = _
      unfold connectPollAux
      rw [if_neg hs, if_pos h]
    · rw [if_neg h]
      have hnow : st.now ≤ start + Int.toNat ⌊timeout⌋ := now_le_of_not_deadline h
      have hf : start + Int.toNat ⌊timeout⌋ + 1 - st.now =
          (start + Int.toNat ⌊timeout⌋ + 1 - (st.now + 1)) + 1 := by omega
      show connectPollAux env start timeout (start + Int.toNat ⌊timeout⌋ + 1 - st.now) st = _
      rw [hf]
      show connectPollAux env start timeout _ st = _
      conv_lhs => unfold connectPollAux
      rw [if_neg hs, if_neg h]
      unfold connectPoll
      rfl

/-! ### Per-operation helper lemmas -/

theorem checkLimits_none (env : Env) (cfg : Config) (v : Int) (st : LiftState)
    (htop : 0 < v → env.hallTop st.now = false)
    (hbot : v < 0 → env.hallBottom st.now = false) :
    checkLimits env cfg v st = (none, st) := by
  have h1 : ¬(0 < v ∧ env.hallTop st.now = true) := by
    rintro ⟨hv, ht⟩
    rw [htop hv] at ht
    exact Bool.false_ne_true ht
  have h2 : ¬(v < 0 ∧ env.hallBottom st.now = true) := by
    rintro ⟨hv, hb⟩
    rw [hbot hv] at hb
    exact Bool.false_ne_true hb
  unfold checkLimits
  rw [if_neg h1, if_neg h2]

/-- Speed 0 always passes the limit check, whatever the sensors read. -/
theorem checkLimits_zero (env : Env) (cfg : Config) (st : LiftState) :
    checkLimits env cfg 0 st = (none, st) :=
  checkLimits_none env cfg 0 st (by intro h; exact absurd h (by norm_num))
    (by intro h; exact absurd h (by norm_num))

/-- `_check_timeout` never changes the state and can only raise
`LiftConnectionException`. -/
theorem checkTimeout_cases (cfg : Config) (st : LiftState) :
    checkTimeout cfg st = (none, st) ∨ checkTimeout cfg st = (some .conn, st) := by
  unfold checkTimeout
  cases hl : st.lastResponseTs with
  | none => exact Or.inl rfl
  | some ts =>
    by_cases hc : ((st.now - ts : Nat) : ℚ) > cfg.timeoutS
    · refine Or.inr ?_
      show (if ((st.now - ts : Nat) : ℚ) > cfg.timeoutS then ((some LiftErr.conn : Option LiftErr), st)
        else (none, st)) = _
      rw [if_pos hc]
    · refine Or.inl ?_
      show (if ((st.now - ts : Nat) : ℚ) > cfg.timeoutS then ((some LiftErr.conn : Option LiftErr), st)
        else (none, st)) = _
      rw [if_neg hc]

theorem sendSpeed_ok (env : Env) (cfg : Config) (v : Int) (st : LiftState)
    (hsock : st.sockOpen = true)
    (hcl : checkLimits env cfg v st = (none, st))
    (hsend : env.sendOk st.now = true) :
    sendSpeed env cfg v st = (none, {st with sent := st.sent ++ [(st.now, v)]}) := by
  unfold sendSpeed
  rw [hcl]
  simp [hsock, hsend]

theorem sendSpeed_fail (env : Env) (cfg : Config) (v : Int) (st : LiftState)
    (hsock : st.sockOpen = true)
    (hcl : checkLimits env cfg v st = (none, st))
    (hsend : env.sendOk st.now = false) :
    sendSpeed env cfg v st = (some .conn, st) := by
  unfold sendSpeed
  rw [hcl]
  simp [hsock, hsend]

theorem recv_empty (env : Env) (v : Int) (st : LiftState)
    (hsock : st.sockOpen = true) (hres : env.resps st.now = []) :
    recvResponses env v st = (none, st) := by
  unfold recvResponses
  rw [hsock, hres]
  simp [processResponses]

/-- One steady tick with a dead link: socket open, no datagrams pending,
limit sensors not blocking, `sendto` failing.  The tick continues with the
state untouched. -/
theorem tick_steady_dead (env : Env) (cfg : Config) (v : Int) (st : LiftState)
    (hsock : st.sockOpen = true)
    (htop : 0 < v → env.hallTop st.now = false)
    (hbot : v < 0 → env.hallBottom st.now = false)
    (hsend : env.sendOk st.now = false) :
    tickBody env cfg v st = .cont st := by
  have hcl := checkLimits_none env cfg v st htop hbot
  unfold tickBody
  rw [sendSpeed_fail env cfg v st hsock hcl hsend]
  rfl

/-- One steady tick with a live link: socket open, no datagrams pending,
limit sensors not blocking, `sendto` succeeding.  The tick continues and the
only state change is the recorded datagram. -/
theorem tick_steady_live (env : Env) (cfg : Config) (v : Int) (st : LiftState)
    (hsock : st.sockOpen = true)
    (hres : env.resps st.now = [])
    (htop : 0 < v → env.hallTop st.now = false)
    (hbot : v < 0 → env.hallBottom st.now = false)
    (hsend : env.sendOk st.now = true) :
    tickBody env cfg v st = .cont {st with sent := st.sent ++ [(st.now, v)]} := by
  have hcl := checkLimits_none env cfg v st htop hbot
  unfold tickBody
  rw [sendSpeed_ok env cfg v st hsock hcl hsend]
  simp only [catchTick]
  rw [recv_empty env v {st with sent := st.sent ++ [(st.now, v)]} hsock hres]
  simp only [catchTick]
  rcases checkTimeout_cases cfg {st with sent := st.sent ++ [(st.now, v)]} with hct | hct
  · rw [hct]
  · rw [hct]

/-- Once the clock passes `start + ⌊dur⌋`, the source deadline test holds. -/
theorem deadline_at {start : Nat} {dur : ℚ} {n : Nat}
    (h : start + Int.toNat ⌊dur⌋ + 1 ≤ n) : (start : ℚ) + dur < (n : ℚ) := by
  have h1 : dur < (Int.toNat ⌊dur⌋ : ℚ) + 1 := by
    have h2 : dur < (⌊dur⌋ : ℚ) + 1 := Int.lt_floor_add_one dur
    have h3 : (⌊dur⌋ : ℚ) ≤ ((Int.toNat ⌊dur⌋ : ℤ) : ℚ) := by
      exact_mod_cast Int.self_le_toNat ⌊dur⌋
    push_cast at h3 ⊢
    linarith
  have h4 : ((start + Int.toNat ⌊dur⌋ + 1 : Nat) : ℚ) ≤ (n : ℚ) := by exact_mod_cast h
  push_cast at h4
  linarith

/-- Closed form of the movement loop over a dead link in a quiet world: no
datagrams, no blocking limit sensor, every send failing.  Every tick logs the
`LiftConnectionException` and retries; the loop runs to its deadline with the
state unchanged except for the clock. -/
theorem moveLoop_steady_dead (env : Env) (cfg : Config) (v : Int)
    (hres : ∀ t, env.resps t = [])
    (htop : 0 < v → ∀ t, env.hallTop t = false)
    (hbot : v < 0 → ∀ t, env.hallBottom t = false)
    (hsend : ∀ t, env.sendOk t = false)
    (start : Nat) (dur : ℚ) (hdur : 0 ≤ dur) :
    ∀ k st, st.sockOpen = true → start + Int.toNat ⌊dur⌋ + 1 - st.now = k →
      st.now ≤ start + Int.toNat ⌊dur⌋ + 1 →
      moveLoop env cfg v start dur st =
        (.deadline, {st with now := start + Int.toNat ⌊dur⌋ + 1}) := by
  intro k
  induction k with
  | zero =>
    intro st hsock hk hle
    have hnow : st.now = start + Int.toNat ⌊dur⌋ + 1 := by omega
    rw [moveLoop_eq, if_pos (by rw [hnow]; exact deadline_at (le_refl _))]
    rw [← hnow]
  | succ k ih =>
    intro st hsock hk hle
    have hnow : st.now ≤ start + Int.toNat ⌊dur⌋ := by omega
    have hD : (Int.toNat ⌊dur⌋ : ℚ) ≤ dur := by
      have h0 : (0 : ℤ) ≤ ⌊dur⌋ := Int.floor_nonneg.mpr hdur
      have h1 : ((Int.toNat ⌊dur⌋ : ℤ) : ℚ) = ((⌊dur⌋ : ℤ) : ℚ) := by
        rw [Int.toNat_of_nonneg h0]
      have h2 : ((⌊dur⌋ : ℤ) : ℚ) ≤ dur := Int.floor_le dur
      push_cast at h1 ⊢
      rw [h1]
      exact h2
    have hnd : ¬((start : ℚ) + dur < (st.now : ℚ)) := by
      push_cast
      have : (st.now : ℚ) ≤ (start : ℚ) + (Int.toNat ⌊dur⌋ : ℚ) := by exact_mod_cast hnow
      linarith
    rw [moveLoop_eq, if_neg hnd]
    rw [tick_steady_dead env cfg v st hsock (fun hv => htop hv st.now)
      (fun hv => hbot hv st.now) (hsend st.now)]
    show moveLoop env cfg v start dur {st with now := st.now + 1} = _
    rw [ih {st with now := st.now + 1} hsock
      (by show start + Int.toNat ⌊dur⌋ + 1 - (st.now + 1) = k; omega)
      (by show st.now + 1 ≤ start + Int.toNat ⌊dur⌋ + 1; omega)]

/-- Closed form of the movement loop over a live link in a quiet world: no
datagrams, no blocking limit sensor, every send succeeding.  The loop runs to
its deadline, recording one datagram per tick. -/
theorem moveLoop_steady_live (env : Env) (cfg : Config) (v : Int)
    (hres : ∀ t, env.resps t = [])
    (htop : 0 < v → ∀ t, env.hallTop t = false)
    (hbot : v < 0 → ∀ t, env.hallBottom t = false)
    (hsend : ∀ t, env.sendOk t = true)
    (start : Nat) (dur : ℚ) (hdur : 0 ≤ dur) :
    ∀ k st, st.sockOpen = true → start + Int.toNat ⌊dur⌋ + 1 - st.now = k →
      st.now ≤ start + Int.toNat ⌊dur⌋ + 1 →
      moveLoop env cfg v start dur st =
        (.deadline,
          {st with now := start + Int.toNat ⌊dur⌋ + 1, sent := st.sent ++ sentRun v st.now k}) := by
  intro k
  induction k with
  | zero =>
    intro st hsock hk hle
    have hnow : st.now = start + Int.toNat ⌊dur⌋ + 1 := by omega
    rw [moveLoop_eq, if_pos (by rw [hnow]; exact deadline_at (le_refl _))]
    rw [← hnow]
    rw [show sentRun v st.now 0 = [] from rfl, List.append_nil]
  | succ k ih =>
    intro st hsock hk hle
    have hnow : st.now ≤ start + Int.toNat ⌊dur⌋ := by omega
    have hD : (Int.toNat ⌊dur⌋ : ℚ) ≤ dur := by
      have h0 : (0 : ℤ) ≤ ⌊dur⌋ := Int.floor_nonneg.mpr hdur
      have h1 : ((Int.toNat ⌊dur⌋ : ℤ) : ℚ) = ((⌊dur⌋ : ℤ) : ℚ) := by
        rw [Int.toNat_of_nonneg h0]
      have h2 : ((⌊dur⌋ : ℤ) : ℚ) ≤ dur := Int.floor_le dur
      push_cast at h1 ⊢
      rw [h1]
      exact h2
    have hnd : ¬((start : ℚ) + dur < (st.now : ℚ)) := by
      push_cast
      have : (st.now : ℚ) ≤ (start : ℚ) + (Int.toNat ⌊dur⌋ : ℚ) := by exact_mod_cast hnow
      linarith
    rw [moveLoop_eq, if_neg hnd]
    rw [tick_steady_live env cfg v st hsock (hres st.now) (fun hv => htop hv st.now)
      (fun hv => hbot hv st.now) (hsend st.now)]
    show moveLoop env cfg v start dur
      {st with sent := st.sent ++ [(st.now, v)], now := st.now + 1} = _
    rw [ih {st with sent := st.sent ++ [(st.now, v)], now := st.now + 1} hsock
      (by show start + Int.toNat ⌊dur⌋ + 1 - (st.now + 1) = k; omega)
      (by show st.now + 1 ≤ start + Int.toNat ⌊dur⌋ + 1; omega)]
    rw [show sentRun v st.now (k + 1) = (st.now, v) :: sentRun v (st.now + 1) k from rfl]
    simp

/-- Closed form of `_move` over a permanently dead link in a quiet world:
every tick's send fails and is retried, the loop runs to its deadline, the
stop episode likewise, and the elapsed duration `⌊dur⌋ + 1` ticks is
returned. -/
theorem move_steady_dead (env : Env) (cfg : Config) (v : Int)
    (hres : ∀ t, env.resps t = [])
    (htop : 0 < v → ∀ t, env.hallTop t = false)
    (hbot : v < 0 → ∀ t, env.hallBottom t = false)
    (hsend : ∀ t, env.sendOk t = false)
    (dur : ℚ) (hdur : 0 ≤ dur) (st : LiftState) (hsock : st.sockOpen = true)
    (hv : v ≠ 0) :
    move env cfg v dur st = .ok ((Int.toNat ⌊dur⌋ + 1 : Nat) : ℚ)
      {st with now := st.now + Int.toNat ⌊dur⌋ + 3, lastResponseTs := none, episodes := st.episodes ++ [(v, dur), (0, 1)]} := by
  unfold move
  dsimp only
  rw [moveLoop_steady_dead env cfg v hres htop hbot hsend st.now dur hdur
    (Int.toNat ⌊dur⌋ + 1) {st with episodes := st.episodes ++ [(v, dur)]} hsock
    (by show st.now + Int.toNat ⌊dur⌋ + 1 - st.now = Int.toNat ⌊dur⌋ + 1; omega)
    (by show st.now ≤ st.now + Int.toNat ⌊dur⌋ + 1; omega)]
  dsimp only
  rw [if_neg hv]
  rw [moveLoop_steady_dead env cfg 0 hres (fun h => absurd h (by norm_num))
    (fun h => absurd h (by norm_num)) hsend (st.now + Int.toNat ⌊dur⌋ + 1) 1 (by norm_num)
    2 {st with now := st.now + Int.toNat ⌊dur⌋ + 1, episodes := st.episodes ++ [(v, dur)] ++ [(0, 1)]} hsock
    (by show st.now + Int.toNat ⌊dur⌋ + 1 + Int.toNat ⌊(1 : ℚ)⌋ + 1 - (st.now + Int.toNat ⌊dur⌋ + 1) = 2
        rw [Int.floor_one]
        omega)
    (by show st.now + Int.toNat ⌊dur⌋ + 1 ≤ st.now + Int.toNat ⌊dur⌋ + 1 + Int.toNat ⌊(1 : ℚ)⌋ + 1
        omega)]
  dsimp only
  have h1 : st.now + Int.toNat ⌊dur⌋ + 1 - st.now = Int.toNat ⌊dur⌋ + 1 := by omega
  have h2 : st.now + Int.toNat ⌊dur⌋ + 1 + Int.toNat ⌊(1 : ℚ)⌋ + 1 = st.now + Int.toNat ⌊dur⌋ + 3 := by
    rw [Int.floor_one]
    omega
  rw [h1, h2]
  simp

/-- Closed form of `_move` over a live link in a quiet world (no responses,
no blocking sensor): the loop runs to its deadline sending one datagram per
tick, then the stop episode sends two zero-speed datagrams. -/
theorem move_steady_live (env : Env) (cfg : Config) (v : Int)
    (hres : ∀ t, env.resps t = [])
    (htop : 0 < v → ∀ t, env.hallTop t = false)
    (hbot : v < 0 → ∀ t, env.hallBottom t = false)
    (hsend : ∀ t, env.sendOk t = true)
    (dur : ℚ) (hdur : 0 ≤ dur) (st : LiftState) (hsock : st.sockOpen = true)
    (hv : v ≠ 0) :
    move env cfg v dur st = .ok ((Int.toNat ⌊dur⌋ + 1 : Nat) : ℚ)
      {st with now := st.now + Int.toNat ⌊dur⌋ + 3, lastResponseTs := none, episodes := st.episodes ++ [(v, dur), (0, 1)], sent := st.sent ++ sentRun v st.now (Int.toNat ⌊dur⌋ + 1) ++ sentRun 0 (st.now + Int.toNat ⌊dur⌋ + 1) 2} := by
  unfold move
  dsimp only
  rw [moveLoop_steady_live env cfg v hres htop hbot hsend st.now dur hdur
    (Int.toNat ⌊dur⌋ + 1) {st with episodes := st.episodes ++ [(v, dur)]} hsock
    (by show st.now + Int.toNat ⌊dur⌋ + 1 - st.now = Int.toNat ⌊dur⌋ + 1; omega)
    (by show st.now ≤ st.now + Int.toNat ⌊dur⌋ + 1; omega)]
  dsimp only
  rw [if_neg hv]
  rw [moveLoop_steady_live env cfg 0 hres (fun h => absurd h (by norm_num))
    (fun h => absurd h (by norm_num)) hsend (st.now + Int.toNat ⌊dur⌋ + 1) 1 (by norm_num)
    2 {st with now := st.now + Int.toNat ⌊dur⌋ + 1, sent := st.sent ++ sentRun v st.now (Int.toNat ⌊dur⌋ + 1), episodes := st.episodes ++ [(v, dur)] ++ [(0, 1)]} hsock
    (by show st.now + Int.toNat ⌊dur⌋ + 1 + Int.toNat ⌊(1 : ℚ)⌋ + 1 - (st.now + Int.toNat ⌊dur⌋ + 1) = 2
        rw [Int.floor_one]
        omega)
    (by show st.now + Int.toNat ⌊dur⌋ + 1 ≤ st.now + Int.toNat ⌊dur⌋ + 1 + Int.toNat ⌊(1 : ℚ)⌋ + 1
        omega)]
  dsimp only
  have h1 : st.now + Int.toNat ⌊dur⌋ + 1 - st.now = Int.toNat ⌊dur⌋ + 1 := by omega
  have h2 : st.now + Int.toNat ⌊dur⌋ + 1 + Int.toNat ⌊(1 : ℚ)⌋ + 1 = st.now + Int.toNat ⌊dur⌋ + 3 := by
    rw [Int.floor_one]
    omega
  rw [h1, h2]
  simp

/-- The calibration bump loop exits at once when the bottom sensor reads
inactive. -/
theorem bumpLoop_exit (env : Env) (cfg : Config) (f : Nat) (st : LiftState)
    (hb : env.hallBottom st.now = false) :
    bumpLoop env cfg (f + 1) st = .ok () st := by
  unfold bumpLoop
  rw [hb]
  rfl

/-- The docking retry loop over a dead link with the charging indicator never
active: every retry's bumps run to their deadlines and the loop exhausts its
retries, returning normally with the calibration fields untouched. -/
theorem dockLoop_dead (env : Env) (cfg : Config)
    (hres : ∀ t, env.resps t = [])
    (hsend : ∀ t, env.sendOk t = false)
    (htopa : ∀ t, env.hallTop t = false)
    (hbota : ∀ t, env.hallBottom t = false)
    (hcharge : ∀ t, env.charging t = false) :
    ∀ n st, st.sockOpen = true →
      ∃ st2, dockLoop env cfg n st = .ok () st2 ∧ st2.sockOpen = true ∧
        st2.timeUp = st.timeUp ∧ st2.timeDown = st.timeDown := by
  intro n
  induction n with
  | zero =>
    intro st hsock
    exact ⟨st, rfl, hsock, rfl, rfl⟩
  | succ r ih =>
    intro st hsock
    unfold dockLoop
    dsimp only
    rw [hcharge]
    rw [if_neg (Bool.false_ne_true)]
    rw [move_steady_dead env cfg 255 hres (fun _ => htopa) (fun h => absurd h (by norm_num))
      hsend (1 / 2) (by norm_num) {st with now := st.now + cfg.dockingDelay} hsock (by norm_num)]
    dsimp only
    rw [move_steady_dead env cfg (-255) hres (fun h => absurd h (by norm_num)) (fun _ => hbota)
      hsend 1 (by norm_num) {st with now := st.now + cfg.dockingDelay + Int.toNat ⌊(1 / 2 : ℚ)⌋ + 3, lastResponseTs := none, episodes := st.episodes ++ [((255 : Int), (1 / 2 : ℚ)), ((0 : Int), (1 : ℚ))]} hsock (by norm_num)]
    dsimp only
    exact ih _ hsock

/-- `dock` over a dead link with the charging indicator never active returns
normally whatever the configuration, leaving the calibration fields
untouched. -/
theorem dock_dead (env : Env) (cfg : Config)
    (hres : ∀ t, env.resps t = [])
    (hsend : ∀ t, env.sendOk t = false)
    (htopa : ∀ t, env.hallTop t = false)
    (hbota : ∀ t, env.hallBottom t = false)
    (hcharge : ∀ t, env.charging t = false)
    (st : LiftState) (hsock : st.sockOpen = true) :
    ∃ st2, dock env cfg st = .ok () st2 ∧ st2.sockOpen = true ∧
      st2.timeUp = st.timeUp ∧ st2.timeDown = st.timeDown := by
  unfold dock
  cases hpin : cfg.chargingPin with
  | none => exact ⟨st, rfl, hsock, rfl, rfl⟩
  | some p => exact dockLoop_dead env cfg hres hsend htopa hbota hcharge cfg.dockingRetries st hsock

/-- `calibrate` over a permanently dead link in a quiet world terminates
normally: the bump loop exits at once (bottom sensor inactive), each of the
three travel episodes runs to its default 300 s deadline over 301 ticks, the
recorded travel times are both 301, and docking exhausts its retries. -/
theorem calibrate_dead (env : Env) (cfg : Config)
    (hres : ∀ t, env.resps t = [])
    (hsend : ∀ t, env.sendOk t = false)
    (htopa : ∀ t, env.hallTop t = false)
    (hbota : ∀ t, env.hallBottom t = false)
    (hcharge : ∀ t, env.charging t = false)
    (f : Nat) (st : LiftState) (hsock : st.sockOpen = true) :
    ∃ st2, calibrate env cfg (f + 1) st = .ok () st2 ∧
      st2.timeUp = some 301 ∧ st2.timeDown = some 301 := by
  have h300 : Int.toNat ⌊(300 : ℚ)⌋ = 300 := by
    have hf : ⌊(300 : ℚ)⌋ = 300 := by norm_num
    rw [hf]
    rfl
  unfold calibrate
  rw [bumpLoop_exit env cfg f st (hbota st.now)]
  dsimp only
  rw [move_steady_dead env cfg (-255) hres (fun h => absurd h (by norm_num)) (fun _ => hbota)
    hsend 300 (by norm_num) st hsock (by norm_num)]
  dsimp only
  rw [move_steady_dead env cfg 255 hres (fun _ => htopa) (fun h => absurd h (by norm_num))
    hsend 300 (by norm_num) {st with now := st.now + Int.toNat ⌊(300 : ℚ)⌋ + 3, lastResponseTs := none, episodes := st.episodes ++ [((-255 : Int), (300 : ℚ)), ((0 : Int), (1 : ℚ))]} hsock (by norm_num)]
  dsimp only
  rw [move_steady_dead env cfg (-255) hres (fun h => absurd h (by norm_num)) (fun _ => hbota)
    hsend 300 (by norm_num) {st with now := st.now + Int.toNat ⌊(300 : ℚ)⌋ + 3 + Int.toNat ⌊(300 : ℚ)⌋ + 3, lastResponseTs := none, episodes := st.episodes ++ [((-255 : Int), (300 : ℚ)), ((0 : Int), (1 : ℚ))] ++ [((255 : Int), (300 : ℚ)), ((0 : Int), (1 : ℚ))], timeUp := some ((Int.toNat ⌊(300 : ℚ)⌋ + 1 : Nat) : ℚ)} hsock (by norm_num)]
  dsimp only
  have hd := dock_dead env cfg hres hsend htopa hbota hcharge
    {st with now := st.now + Int.toNat ⌊(300 : ℚ)⌋ + 3 + Int.toNat ⌊(300 : ℚ)⌋ + 3 + Int.toNat ⌊(300 : ℚ)⌋ + 3, lastResponseTs := none, episodes := st.episodes ++ [((-255 : Int), (300 : ℚ)), ((0 : Int), (1 : ℚ))] ++ [((255 : Int), (300 : ℚ)), ((0 : Int), (1 : ℚ))] ++ [((-255 : Int), (300 : ℚ)), ((0 : Int), (1 : ℚ))], timeUp := some ((Int.toNat ⌊(300 : ℚ)⌋ + 1 : Nat) : ℚ), timeDown := some ((Int.toNat ⌊(300 : ℚ)⌋ + 1 : Nat) : ℚ)}
    hsock
  obtain ⟨st2, hd1, hd2, hd3, hd4⟩ := hd
  refine ⟨st2, hd1, ?_, ?_⟩
  · rw [hd3]
    rw [h300]
    norm_num
  · rw [hd4]
    rw [h300]
    norm_num

/-- The handshake poll when no datagram ever arrives: `_current_speed` stays
`None`, the clock advances to the timeout, and the poll ends in the source's
own `self.disconnect()` (lift.py:134) followed by the raise. -/
theorem connectPoll_noresp (env : Env) (hres : ∀ t, env.resps t = [])
    (start : Nat) (timeout : ℚ) (ht0 : 0 ≤ timeout) :
    ∀ k st, st.sockOpen = true → st.currentSpeed = none →
      start + Int.toNat ⌊timeout⌋ + 1 - st.now = k →
      st.now ≤ start + Int.toNat ⌊timeout⌋ + 1 →
      connectPoll env start timeout st =
        .exc .conn (disconnect {st with now := start + Int.toNat ⌊timeout⌋ + 1}) := by
  intro k
  induction k with
  | zero =>
    intro st hsock hsp hk hle
    have hnow : st.now = start + Int.toNat ⌊timeout⌋ + 1 := by omega
    rw [connectPoll_eq]
    rw [if_neg (by rw [hsp]; exact fun h => h rfl)]
    rw [if_pos (by rw [hnow]; exact deadline_at (le_refl _))]
    rw [← hnow]
  | succ k ih =>
    intro st hsock hsp hk hle
    have hnow : st.now ≤ start + Int.toNat ⌊timeout⌋ := by omega
    have hD : (Int.toNat ⌊timeout⌋ : ℚ) ≤ timeout := by
      have h0 : (0 : ℤ) ≤ ⌊timeout⌋ := Int.floor_nonneg.mpr ht0
      have h1 : ((Int.toNat ⌊timeout⌋ : ℤ) : ℚ) = ((⌊timeout⌋ : ℤ) : ℚ) := by
        rw [Int.toNat_of_nonneg h0]
      have h2 : ((⌊timeout⌋ : ℤ) : ℚ) ≤ timeout := Int.floor_le timeout
      push_cast at h1 ⊢
      rw [h1]
      exact h2
    have hnd : ¬((start : ℚ) + timeout < (st.now : ℚ)) := by
      push_cast
      have : (st.now : ℚ) ≤ (start : ℚ) + (Int.toNat ⌊timeout⌋ : ℚ) := by exact_mod_cast hnow
      linarith
    rw [connectPoll_eq]
    rw [if_neg (by rw [hsp]; exact fun h => h rfl)]
    rw [if_neg hnd]
    rw [recv_empty env 0 st hsock (hres st.now)]
    show connectPoll env start timeout {st with now := st.now + 1} = _
    rw [ih {st with now := st.now + 1} hsock hsp
      (by show start + Int.toNat ⌊timeout⌋ + 1 - (st.now + 1) = k; omega)
      (by show st.now + 1 ≤ start + Int.toNat ⌊timeout⌋ + 1; omega)]

/-- `connect` against a link that never answers: the initial zero-speed
command is sent, the poll times out, and `connect` itself disconnects —
closing the socket and releasing the lock — before raising
`LiftConnectionException`. -/
theorem connect_noresp (env : Env) (cfg : Config) (timeout : ℚ) (st : LiftState)
    (hwifi : env.wifiOk = true) (hres : ∀ t, env.resps t = [])
    (hsend : env.sendOk st.now = true) (hsp : st.currentSpeed = none)
    (ht0 : 0 ≤ timeout) :
    connect env cfg timeout st =
      .exc .conn {st with sockOpen := false, lockHeld := false, now := st.now + Int.toNat ⌊timeout⌋ + 1, sent := st.sent ++ [(st.now, 0)]} := by
  unfold connect
  dsimp only
  rw [hwifi]
  rw [if_pos rfl]
  rw [sendSpeed_ok env cfg 0 {st with lockHeld := true, sockOpen := true} rfl
    (checkLimits_zero env cfg _) hsend]
  dsimp only
  rw [connectPoll_noresp env hres st.now timeout ht0 (Int.toNat ⌊timeout⌋ + 1)
    {st with lockHeld := true, sockOpen := true, sent := st.sent ++ [(st.now, 0)]} rfl hsp
    (by show st.now + Int.toNat ⌊timeout⌋ + 1 - st.now = Int.toNat ⌊timeout⌋ + 1; omega)
    (by show st.now ≤ st.now + Int.toNat ⌊timeout⌋ + 1; omega)]
  rfl

/-- Unfolding equation for the drain-loop body on a two-token datagram. -/
theorem processResponses_cons (q : Int) (ts : Nat) (cmd sStr : String)
    (rs : List (List String)) (st : LiftState) :
    processResponses q ts ([cmd, sStr] :: rs) st =
      if cmd = "set" then
        match sStr.toInt? with
        | some v =>
          processResponses q ts rs {st with lastResponseTs := some ts, currentSpeed := some v}
        | none => (some .valueErr, {st with lastResponseTs := some ts})
      else
        (some .conn, {st with lastResponseTs := some ts}) := by
  conv_lhs => unfold processResponses

/-- Draining structurally well-formed datagrams never raises `ValueError`
(at worst `LiftConnectionException` on an unknown command) and only touches
`_current_speed` and `_last_response_ts`. -/
theorem processResponses_wf (q : Int) (ts : Nat) :
    ∀ rs st, (∀ r ∈ rs, goodResp r = true) →
      ∃ e st2, processResponses q ts rs st = (e, st2) ∧
        (e = none ∨ e = some .conn) ∧
        st2.sockOpen = st.sockOpen ∧ st2.now = st.now ∧ st2.sent = st.sent ∧
        st2.episodes = st.episodes ∧ st2.timeUp = st.timeUp ∧
        st2.timeDown = st.timeDown ∧ st2.currentHeightM = st.currentHeightM := by
  intro rs
  induction rs with
  | nil =>
    intro st _
    exact ⟨none, st, rfl, Or.inl rfl, rfl, rfl, rfl, rfl, rfl, rfl, rfl⟩
  | cons r rs ih =>
    intro st h
    have hr : goodResp r = true := h r (List.mem_cons_self r rs)
    have hrs : ∀ r2 ∈ rs, goodResp r2 = true := fun r2 hm => h r2 (List.mem_cons_of_mem _ hm)
    match r, hr with
    | [], hr => exact (Bool.false_ne_true hr).elim
    | [a], hr => exact (Bool.false_ne_true hr).elim
    | a :: b :: c :: tl, hr => exact (Bool.false_ne_true hr).elim
    | [cmd, sStr], hr =>
      rw [processResponses_cons]
      by_cases hc : cmd = "set"
      · have hsome : (sStr.toInt?).isSome = true := by
          simpa [goodResp, hc] using hr
        obtain ⟨v, hv⟩ := Option.isSome_iff_exists.mp hsome
        rw [if_pos hc, hv]
        obtain ⟨e, st2, h1, h2, h3, h4, h5, h6, h7, h8, h9⟩ :=
          ih {st with lastResponseTs := some ts, currentSpeed := some v} hrs
        exact ⟨e, st2, h1, h2, h3, h4, h5, h6, h7, h8, h9⟩
      · rw [if_neg hc]
        exact ⟨some .conn, _, rfl, Or.inr rfl, rfl, rfl, rfl, rfl, rfl, rfl, rfl⟩

/-- Under well-formed datagrams, `_recv_responses` never raises
`ValueError` and only touches `_current_speed` / `_last_response_ts`. -/
theorem recvResponses_wf (env : Env) (hwf : WfResps env) (q : Int) (st : LiftState) :
    ∃ e st2, recvResponses env q st = (e, st2) ∧
      (e = none ∨ e = some .conn) ∧
      st2.sockOpen = st.sockOpen ∧ st2.now = st.now ∧ st2.sent = st.sent ∧
      st2.episodes = st.episodes ∧ st2.timeUp = st.timeUp ∧
      st2.timeDown = st.timeDown ∧ st2.currentHeightM = st.currentHeightM := by
  by_cases hsock : st.sockOpen = true
  · obtain ⟨e, st2, h1, h2, h3, h4, h5, h6, h7, h8, h9⟩ :=
      processResponses_wf q st.now (env.resps st.now) st (hwf st.now)
    refine ⟨e, st2, ?_, h2, h3, h4, h5, h6, h7, h8, h9⟩
    unfold recvResponses
    rw [hsock]
    simpa using h1
  · have hs : st.sockOpen = false := by
      revert hsock
      cases st.sockOpen <;> simp
    refine ⟨some .conn, st, ?_, Or.inr rfl, rfl, rfl, rfl, rfl, rfl, rfl, rfl⟩
    unfold recvResponses
    rw [hs]
    simp

/-- Under well-formed datagrams, one `_move` tick never crashes: it either
continues or breaks on a limit hit, preserving the socket, the clock, the
episode log and the calibration fields. -/
theorem tickBody_wf (env : Env) (cfg : Config) (hwf : WfResps env) (v : Int)
    (st : LiftState) :
    ∃ st2, (tickBody env cfg v st = .cont st2 ∨ tickBody env cfg v st = .stop st2) ∧
      st2.sockOpen = st.sockOpen ∧ st2.now = st.now ∧ st2.episodes = st.episodes ∧
      st2.timeUp = st.timeUp ∧ st2.timeDown = st.timeDown := by
  by_cases hsock : st.sockOpen = true
  · by_cases h1 : 0 < v ∧ env.hallTop st.now = true
    · refine ⟨{st with currentHeightM := some cfg.height}, Or.inr ?_, rfl, rfl, rfl, rfl, rfl⟩
      unfold tickBody sendSpeed checkLimits
      rw [hsock, if_pos h1]
      simp [catchTick]
    · by_cases h2 : v < 0 ∧ env.hallBottom st.now = true
      · refine ⟨{st with currentHeightM := some 0}, Or.inr ?_, rfl, rfl, rfl, rfl, rfl⟩
        unfold tickBody sendSpeed checkLimits
        rw [hsock, if_neg h1, if_pos h2]
        simp [catchTick]
      · have hcl : checkLimits env cfg v st = (none, st) := by
          unfold checkLimits
          rw [if_neg h1, if_neg h2]
        by_cases hsend : env.sendOk st.now = true
        · obtain ⟨e, st2, hr1, hr2, hr3, hr4, hr5, hr6, hr7, hr8, hr9⟩ :=
            recvResponses_wf env hwf v {st with sent := st.sent ++ [(st.now, v)]}
          rcases hr2 with he | he
          · rcases checkTimeout_cases cfg st2 with hct | hct
            · refine ⟨st2, Or.inl ?_, hr3, hr4, hr6, hr7, hr8⟩
              unfold tickBody
              rw [sendSpeed_ok env cfg v st hsock hcl hsend]
              simp only [catchTick]
              rw [hr1, he]
              simp only [catchTick]
              rw [hct]
            · refine ⟨st2, Or.inl ?_, hr3, hr4, hr6, hr7, hr8⟩
              unfold tickBody
              rw [sendSpeed_ok env cfg v st hsock hcl hsend]
              simp only [catchTick]
              rw [hr1, he]
              simp only [catchTick]
              rw [hct]
          · refine ⟨st2, Or.inl ?_, hr3, hr4, hr6, hr7, hr8⟩
            unfold tickBody
            rw [sendSpeed_ok env cfg v st hsock hcl hsend]
            simp only [catchTick]
            rw [hr1, he]
        · have hsf : env.sendOk st.now = false := by
            revert hsend
            cases env.sendOk st.now <;> simp
          refine ⟨st, Or.inl ?_, rfl, rfl, rfl, rfl, rfl⟩
          unfold tickBody
          rw [sendSpeed_fail env cfg v st hsock hcl hsf]
          rfl
  · have hs : st.sockOpen = false := by
      revert hsock
      cases st.sockOpen <;> simp
    refine ⟨st, Or.inl ?_, rfl, rfl, rfl, rfl, rfl⟩
    unfold tickBody sendSpeed
    rw [hs]
    simp [catchTick]

/-- Under well-formed datagrams, the movement loop never ends in a crash: it
is stopped by the deadline or by a limit hit, preserving the socket, the
episode log and the calibration fields. -/
theorem moveLoop_wf (env : Env) (cfg : Config) (hwf : WfResps env) (v : Int)
    (start : Nat) (dur : ℚ) :
    ∀ k st, start + Int.toNat ⌊dur⌋ + 1 - st.now = k →
      ∃ e st2, moveLoop env cfg v start dur st = (e, st2) ∧
        (e = .deadline ∨ e = .limit) ∧
        st2.sockOpen = st.sockOpen ∧ st2.episodes = st.episodes ∧
        st2.timeUp = st.timeUp ∧ st2.timeDown = st.timeDown := by
  intro k
  induction k with
  | zero =>
    intro st hk
    have hd : (start : ℚ) + dur < (st.now : ℚ) := by
      by_contra hnd
      have := now_le_of_not_deadline hnd
      omega
    rw [moveLoop_eq, if_pos hd]
    exact ⟨.deadline, st, rfl, Or.inl rfl, rfl, rfl, rfl, rfl⟩
  | succ k ih =>
    intro st hk
    rw [moveLoop_eq]
    by_cases hd : (start : ℚ) + dur < (st.now : ℚ)
    · rw [if_pos hd]
      exact ⟨.deadline, st, rfl, Or.inl rfl, rfl, rfl, rfl, rfl⟩
    · rw [if_neg hd]
      have hle := now_le_of_not_deadline hd
      obtain ⟨st2, ht, h3, h4, h5, h6, h7⟩ := tickBody_wf env cfg hwf v st
      rcases ht with ht | ht
      · rw [ht]
        obtain ⟨e, st3, hm1, hm2, hm3, hm4, hm5, hm6⟩ :=
          ih {st2 with now := st.now + 1} (by show start + Int.toNat ⌊dur⌋ + 1 - (st.now + 1) = k; omega)
        refine ⟨e, st3, hm1, hm2, ?_, ?_, ?_, ?_⟩
        · rw [hm3]; exact h3
        · rw [hm4]; exact h5
        · rw [hm5]; exact h6
        · rw [hm6]; exact h7
      · rw [ht]
        exact ⟨.limit, st2, rfl, Or.inr rfl, h3, h5, h6, h7⟩

/-- Under well-formed datagrams, `_move` with a nonzero speed always returns
normally: it records its episode and the nested stop episode, and preserves
the socket and the calibration fields. -/
theorem move_wf (env : Env) (cfg : Config) (hwf : WfResps env) (v : Int)
    (hv : v ≠ 0) (dur : ℚ) (st : LiftState) :
    ∃ d st2, move env cfg v dur st = .ok d st2 ∧
      st2.episodes = st.episodes ++ [(v, dur), ((0 : Int), (1 : ℚ))] ∧
      st2.sockOpen = st.sockOpen ∧ st2.timeUp = st.timeUp ∧
      st2.timeDown = st.timeDown := by
  unfold move
  dsimp only
  obtain ⟨e, st1, h1, h2, h3, h4, h5, h6⟩ := moveLoop_wf env cfg hwf v st.now dur
    (st.now + Int.toNat ⌊dur⌋ + 1 - ({st with episodes := st.episodes ++ [(v, dur)]} : LiftState).now)
    {st with episodes := st.episodes ++ [(v, dur)]} rfl
  rw [h1]
  rcases h2 with he | he
  · rw [he]
    dsimp only
    rw [if_neg hv]
    obtain ⟨e2, st3, hm1, hm2, hm3, hm4, hm5, hm6⟩ := moveLoop_wf env cfg hwf 0 st1.now 1
      (st1.now + Int.toNat ⌊(1 : ℚ)⌋ + 1 - ({st1 with episodes := st1.episodes ++ [((0 : Int), (1 : ℚ))]} : LiftState).now)
      {st1 with episodes := st1.episodes ++ [((0 : Int), (1 : ℚ))]} rfl
    rw [hm1]
    rcases hm2 with he2 | he2
    · rw [he2]
      refine ⟨_, _, rfl, ?_, ?_, ?_, ?_⟩
      · rw [show ({st3 with lastResponseTs := none} : LiftState).episodes = st3.episodes from rfl,
          hm4]
        rw [show ({st1 with episodes := st1.episodes ++ [((0 : Int), (1 : ℚ))]} : LiftState).episodes = st1.episodes ++ [((0 : Int), (1 : ℚ))] from rfl, h4]
        simp
      · rw [show ({st3 with lastResponseTs := none} : LiftState).sockOpen = st3.sockOpen from rfl,
          hm3]
        exact h3
      · rw [show ({st3 with lastResponseTs := none} : LiftState).timeUp = st3.timeUp from rfl,
          hm5]
        exact h5
      · rw [show ({st3 with lastResponseTs := none} : LiftState).timeDown = st3.timeDown from rfl,
          hm6]
        exact h6
    · rw [he2]
      refine ⟨_, _, rfl, ?_, ?_, ?_, ?_⟩
      · rw [show ({st3 with lastResponseTs := none} : LiftState).episodes = st3.episodes from rfl,
          hm4]
        rw [show ({st1 with episodes := st1.episodes ++ [((0 : Int), (1 : ℚ))]} : LiftState).episodes = st1.episodes ++ [((0 : Int), (1 : ℚ))] from rfl, h4]
        simp
      · rw [show ({st3 with lastResponseTs := none} : LiftState).sockOpen = st3.sockOpen from rfl,
          hm3]
        exact h3
      · rw [show ({st3 with lastResponseTs := none} : LiftState).timeUp = st3.timeUp from rfl,
          hm5]
        exact h5
      · rw [show ({st3 with lastResponseTs := none} : LiftState).timeDown = st3.timeDown from rfl,
          hm6]
        exact h6
  · rw [he]
    dsimp only
    rw [if_neg hv]
    obtain ⟨e2, st3, hm1, hm2, hm3, hm4, hm5, hm6⟩ := moveLoop_wf env cfg hwf 0 st1.now 1
      (st1.now + Int.toNat ⌊(1 : ℚ)⌋ + 1 - ({st1 with episodes := st1.episodes ++ [((0 : Int), (1 : ℚ))]} : LiftState).now)
      {st1 with episodes := st1.episodes ++ [((0 : Int), (1 : ℚ))]} rfl
    rw [hm1]
    rcases hm2 with he2 | he2
    · rw [he2]
      refine ⟨_, _, rfl, ?_, ?_, ?_, ?_⟩
      · rw [show ({st3 with lastResponseTs := none} : LiftState).episodes = st3.episodes from rfl,
          hm4]
        rw [show ({st1 with episodes := st1.episodes ++ [((0 : Int), (1 : ℚ))]} : LiftState).episodes = st1.episodes ++ [((0 : Int), (1 : ℚ))] from rfl, h4]
        simp
      · rw [show ({st3 with lastResponseTs := none} : LiftState).sockOpen = st3.sockOpen from rfl,
          hm3]
        exact h3
      · rw [show ({st3 with lastResponseTs := none} : LiftState).timeUp = st3.timeUp from rfl,
          hm5]
        exact h5
      · rw [show ({st3 with lastResponseTs := none} : LiftState).timeDown = st3.timeDown from rfl,
          hm6]
        exact h6
    · rw [he2]
      refine ⟨_, _, rfl, ?_, ?_, ?_, ?_⟩
      · rw [show ({st3 with lastResponseTs := none} : LiftState).episodes = st3.episodes from rfl,
          hm4]
        rw [show ({st1 with episodes := st1.episodes ++ [((0 : Int), (1 : ℚ))]} : LiftState).episodes = st1.episodes ++ [((0 : Int), (1 : ℚ))] from rfl, h4]
        simp
      · rw [show ({st3 with lastResponseTs := none} : LiftState).sockOpen = st3.sockOpen from rfl,
          hm3]
        exact h3
      · rw [show ({st3 with lastResponseTs := none} : LiftState).timeUp = st3.timeUp from rfl,
          hm5]
        exact h5
      · rw [show ({st3 with lastResponseTs := none} : LiftState).timeDown = st3.timeDown from rfl,
          hm6]
        exact h6

/-- With the charging indicator never active and well-formed datagrams, the
docking retry loop runs all `n` retries, each appending one up-bump and one
down-bump (with their stop episodes) to the episode log, then returns
normally. -/
theorem dockLoop_wf (env : Env) (cfg : Config) (hwf : WfResps env)
    (hcharge : ∀ t, env.charging t = false) :
    ∀ n st, ∃ st2, dockLoop env cfg n st = .ok () st2 ∧
      st2.episodes = st.episodes ++ dockBumps n := by
  intro n
  induction n with
  | zero =>
    intro st
    exact ⟨st, rfl, by simp [dockBumps]⟩
  | succ r ih =>
    intro st
    obtain ⟨d1, stA, hA, hA2, _, _, _⟩ := move_wf env cfg hwf 255 (by norm_num) (1 / 2)
      {st with now := st.now + cfg.dockingDelay}
    obtain ⟨d2, stB, hB, hB2, _, _, _⟩ := move_wf env cfg hwf (-255) (by norm_num) 1 stA
    obtain ⟨stC, hC, hC2⟩ := ih stB
    refine ⟨stC, ?_, ?_⟩
    · unfold dockLoop
      dsimp only
      rw [hcharge, if_neg Bool.false_ne_true, hA]
      dsimp only
      rw [hB]
      dsimp only
      rw [hC]
    · rw [hC2, hB2, hA2]
      show ({st with now := st.now + cfg.dockingDelay} : LiftState).episodes ++ _ ++ _ ++ _ = _
      show st.episodes ++ _ ++ _ ++ _ = _
      simp [dockBumps]

/-- `dock` with a configured charging pin, an indicator that never reads
active and well-formed datagrams performs exactly the configured number of
retries and returns normally. -/
theorem dock_wf (env : Env) (cfg : Config) (hwf : WfResps env)
    (hpin : cfg.chargingPin ≠ none) (hcharge : ∀ t, env.charging t = false)
    (st : LiftState) :
    ∃ st2, dock env cfg st = .ok () st2 ∧
      st2.episodes = st.episodes ++ dockBumps cfg.dockingRetries := by
  obtain ⟨st2, h1, h2⟩ := dockLoop_wf env cfg hwf hcharge cfg.dockingRetries st
  refine ⟨st2, ?_, h2⟩
  unfold dock
  cases hp : cfg.chargingPin with
  | none => exact absurd hp hpin
  | some p => exact h1

/-- A tick with a positive speed while the top hall sensor is active: the
limit check sets the estimate to the maximum height and raises
`_MovingException` before any datagram is sent, and the loop breaks. -/
theorem tick_limit_top (env : Env) (cfg : Config) (v : Int) (st : LiftState)
    (hsock : st.sockOpen = true) (hv : 0 < v)
    (htop : env.hallTop st.now = true) :
    tickBody env cfg v st = .stop {st with currentHeightM := some cfg.height} := by
  unfold tickBody sendSpeed checkLimits
  simp [catchTick, hsock, hv, htop]

/-- A tick with a negative speed while the bottom hall sensor is active: the
limit check sets the estimate to zero and raises `_MovingException` before
any datagram is sent, and the loop breaks. -/
theorem tick_limit_bottom (env : Env) (cfg : Config) (v : Int) (st : LiftState)
    (hsock : st.sockOpen = true) (hv : v < 0)
    (hbot : env.hallBottom st.now = true) (hntop : ¬(0 < v ∧ env.hallTop st.now = true)) :
    tickBody env cfg v st = .stop {st with currentHeightM := some 0} := by
  have hnv : ¬(0 < v) := by omega
  unfold tickBody sendSpeed checkLimits
  simp [catchTick, hsock, hv, hbot, hnv]

/-- The movement loop with a positive speed, an active top sensor and an
unexpired deadline stops by the limit on its very first tick, whatever the
remaining deadline. -/
theorem moveLoop_limit_top (env : Env) (cfg : Config) (v : Int) (start : Nat)
    (dur : ℚ) (st : LiftState) (hsock : st.sockOpen = true) (hv : 0 < v)
    (htop : env.hallTop st.now = true)
    (hnd : ¬((start : ℚ) + dur < (st.now : ℚ))) :
    moveLoop env cfg v start dur st =
      (.limit, {st with currentHeightM := some cfg.height}) := by
  rw [moveLoop_eq, if_neg hnd, tick_limit_top env cfg v st hsock hv htop]

/-- The movement loop with a negative speed, an active bottom sensor, an
inactive top sensor and an unexpired deadline stops by the limit on its very
first tick. -/
theorem moveLoop_limit_bottom (env : Env) (cfg : Config) (v : Int) (start : Nat)
    (dur : ℚ) (st : LiftState) (hsock : st.sockOpen = true) (hv : v < 0)
    (hbot : env.hallBottom st.now = true)
    (hntop : ¬(0 < v ∧ env.hallTop st.now = true))
    (hnd : ¬((start : ℚ) + dur < (st.now : ℚ))) :
    moveLoop env cfg v start dur st =
      (.limit, {st with currentHeightM := some 0}) := by
  rw [moveLoop_eq, if_neg hnd, tick_limit_bottom env cfg v st hsock hv hbot hntop]

/-- `_move` with a positive speed while the top sensor is permanently active
(quiet, live link): the episode ends by the limit on the first tick with the
estimate set to the maximum height, and the stop episode still sends its two
zero-speed datagrams. -/
theorem move_limit_top (env : Env) (cfg : Config) (v : Int) (dur : ℚ)
    (st : LiftState)
    (hres : ∀ t, env.resps t = []) (hsend : ∀ t, env.sendOk t = true)
    (hsock : st.sockOpen = true) (hv : 0 < v)
    (htop : ∀ t, env.hallTop t = true) (hdur : 0 ≤ dur) :
    move env cfg v dur st = .ok 0
      {st with currentHeightM := some cfg.height, now := st.now + 2, lastResponseTs := none, episodes := st.episodes ++ [(v, dur), ((0 : Int), (1 : ℚ))], sent := st.sent ++ sentRun 0 st.now 2} := by
  unfold move
  dsimp only
  rw [moveLoop_limit_top env cfg v st.now dur {st with episodes := st.episodes ++ [(v, dur)]}
    hsock hv (htop st.now)
    (by show ¬((st.now : ℚ) + dur < (st.now : ℚ)); push_cast; linarith)]
  dsimp only
  rw [if_neg (by exact fun h => absurd h (by omega))]
  rw [moveLoop_steady_live env cfg 0 hres (fun h => absurd h (by norm_num))
    (fun h => absurd h (by norm_num)) hsend st.now 1 (by norm_num) 2
    {st with episodes := st.episodes ++ [(v, dur)] ++ [((0 : Int), (1 : ℚ))], currentHeightM := some cfg.height} hsock
    (by show st.now + Int.toNat ⌊(1 : ℚ)⌋ + 1 - st.now = 2
        rw [Int.floor_one]
        omega)
    (by show st.now ≤ st.now + Int.toNat ⌊(1 : ℚ)⌋ + 1; omega)]
  have h2 : st.now + Int.toNat ⌊(1 : ℚ)⌋ + 1 = st.now + 2 := by
    rw [Int.floor_one]
    omega
  rw [h2]
  have h0 : ((st.now - st.now : Nat) : ℚ) = 0 := by
    rw [Nat.sub_self]
    norm_num
  rw [h0]
  simp

/-- `_move` with a negative speed while the bottom sensor is permanently
active and the top sensor inactive (quiet, live link): the episode ends by
the limit on the first tick with the estimate set to zero, and the stop
episode still sends its two zero-speed datagrams. -/
theorem move_limit_bottom (env : Env) (cfg : Config) (v : Int) (dur : ℚ)
    (st : LiftState)
    (hres : ∀ t, env.resps t = []) (hsend : ∀ t, env.sendOk t = true)
    (hsock : st.sockOpen = true) (hv : v < 0)
    (hbot : ∀ t, env.hallBottom t = true) (htop : ∀ t, env.hallTop t = false)
    (hdur : 0 ≤ dur) :
    move env cfg v dur st = .ok 0
      {st with currentHeightM := some 0, now := st.now + 2, lastResponseTs := none, episodes := st.episodes ++ [(v, dur), ((0 : Int), (1 : ℚ))], sent := st.sent ++ sentRun 0 st.now 2} := by
  unfold move
  dsimp only
  rw [moveLoop_limit_bottom env cfg v st.now dur {st with episodes := st.episodes ++ [(v, dur)]}
    hsock hv (hbot st.now)
    (by rintro ⟨hv0, ht⟩
        rw [htop] at ht
        exact Bool.false_ne_true ht)
    (by show ¬((st.now : ℚ) + dur < (st.now : ℚ)); push_cast; linarith)]
  dsimp only
  rw [if_neg (by exact fun h => absurd h (by omega))]
  rw [moveLoop_steady_live env cfg 0 hres (fun h => absurd h (by norm_num))
    (fun h => absurd h (by norm_num)) hsend st.now 1 (by norm_num) 2
    {st with episodes := st.episodes ++ [(v, dur)] ++ [((0 : Int), (1 : ℚ))], currentHeightM := some 0} hsock
    (by show st.now + Int.toNat ⌊(1 : ℚ)⌋ + 1 - st.now = 2
        rw [Int.floor_one]
        omega)
    (by show st.now ≤ st.now + Int.toNat ⌊(1 : ℚ)⌋ + 1; omega)]
  have h2 : st.now + Int.toNat ⌊(1 : ℚ)⌋ + 1 = st.now + 2 := by
    rw [Int.floor_one]
    omega
  rw [h2]
  have h0 : ((st.now - st.now : Nat) : ℚ) = 0 := by
    rw [Nat.sub_self]
    norm_num
  rw [h0]
  simp

/-- The already-there short-circuit of `move_to` (lift.py:318-321): no motor
activity, state untouched. -/
theorem moveToMain_eq_branch (env : Env) (cfg : Config) (h : ℚ) (st : LiftState)
    (heq : st.currentHeightM = some h) :
    moveToMain env cfg h st = .ok h st := by
  unfold moveToMain
  rw [if_pos heq]

/-- `move_to` on an already-calibrated state resting exactly at the request:
immediate return, no state change. -/
theorem moveTo_at_height (env : Env) (cfg : Config) (fuel : Nat) (h : ℚ)
    (st : LiftState) (hh : st.currentHeightM = some h) :
    moveTo env cfg fuel h st = .ok h st := by
  unfold moveTo
  rw [hh]
  exact moveToMain_eq_branch env cfg h st hh

/-- Where `move_to`'s main body returns normally, the estimate it leaves:
unchanged on the short-circuit, the maximum height for a high target, zero
for a low target, and the requested target itself (dead reckoning, whatever
ended the episode) otherwise. -/
theorem moveToMain_ok_estimate (env : Env) (cfg : Config) (h : ℚ) (st : LiftState)
    (r : ℚ) (st2 : LiftState) (hok : moveToMain env cfg h st = .ok r st2) :
    (st.currentHeightM = some h ∧ r = h ∧ st2 = st) ∨
    (st.currentHeightM ≠ some h ∧ h ≥ cfg.height ∧
      st2.currentHeightM = some cfg.height ∧ r = cfg.height) ∨
    (st.currentHeightM ≠ some h ∧ ¬(h ≥ cfg.height) ∧ h ≤ 0 ∧
      st2.currentHeightM = some 0 ∧ r = 0) ∨
    (st.currentHeightM ≠ some h ∧ ¬(h ≥ cfg.height) ∧ ¬(h ≤ 0) ∧
      st2.currentHeightM = some h ∧ r = h) := by
  unfold moveToMain at hok
  by_cases h1 : st.currentHeightM = some h
  · rw [if_pos h1] at hok
    injection hok with hr hst
    exact Or.inl ⟨h1, hr.symm, hst.symm⟩
  · rw [if_neg h1] at hok
    by_cases h2 : h ≥ cfg.height
    · rw [if_pos h2] at hok
      refine Or.inr (Or.inl ⟨h1, h2, ?_, ?_⟩)
      · cases htu : st.timeUp with
        | none =>
          rw [htu] at hok
          dsimp only at hok
          exact (Res.noConfusion hok)
        | some tu =>
          rw [htu] at hok
          dsimp only at hok
          cases hmv : move env cfg 255 (tu + cfg.travelMargin) st with
          | exc e s =>
            rw [hmv] at hok
            dsimp only at hok
            exact (Res.noConfusion hok)
          | ok d s =>
            rw [hmv] at hok
            dsimp only at hok
            injection hok with hr hst
            rw [← hst]
      · cases htu : st.timeUp with
        | none =>
          rw [htu] at hok
          dsimp only at hok
          exact (Res.noConfusion hok)
        | some tu =>
          rw [htu] at hok
          dsimp only at hok
          cases hmv : move env cfg 255 (tu + cfg.travelMargin) st with
          | exc e s =>
            rw [hmv] at hok
            dsimp only at hok
            exact (Res.noConfusion hok)
          | ok d s =>
            rw [hmv] at hok
            dsimp only at hok
            injection hok with hr hst
            exact hr.symm
    · rw [if_neg h2] at hok
      by_cases h3 : h ≤ 0
      · rw [if_pos h3] at hok
        refine Or.inr (Or.inr (Or.inl ⟨h1, h2, h3, ?_, ?_⟩))
        · cases htd : st.timeDown with
          | none =>
            rw [htd] at hok
            dsimp only at hok
            exact (Res.noConfusion hok)
          | some td =>
            rw [htd] at hok
            dsimp only at hok
            cases hmv : move env cfg (-255) (td + cfg.travelMargin) st with
            | exc e s =>
              rw [hmv] at hok
              dsimp only at hok
              exact (Res.noConfusion hok)
            | ok d s =>
              rw [hmv] at hok
              dsimp only at hok
              cases hdk : dock env cfg s with
              | exc e s2 =>
                rw [hdk] at hok
                dsimp only at hok
                exact (Res.noConfusion hok)
              | ok u s2 =>
                rw [hdk] at hok
                dsimp only at hok
                injection hok with hr hst
                rw [← hst]
        · cases htd : st.timeDown with
          | none =>
            rw [htd] at hok
            dsimp only at hok
            exact (Res.noConfusion hok)
          | some td =>
            rw [htd] at hok
            dsimp only at hok
            cases hmv : move env cfg (-255) (td + cfg.travelMargin) st with
            | exc e s =>
              rw [hmv] at hok
              dsimp only at hok
              exact (Res.noConfusion hok)
            | ok d s =>
              rw [hmv] at hok
              dsimp only at hok
              cases hdk : dock env cfg s with
              | exc e s2 =>
                rw [hdk] at hok
                dsimp only at hok
                exact (Res.noConfusion hok)
              | ok u s2 =>
                rw [hdk] at hok
                dsimp only at hok
                injection hok with hr hst
                exact hr.symm
      · rw [if_neg h3] at hok
        refine Or.inr (Or.inr (Or.inr ⟨h1, h2, h3, ?_, ?_⟩))
        · cases hc : st.currentHeightM with
          | none =>
            rw [hc] at hok
            dsimp only at hok
            exact (Res.noConfusion hok)
          | some c =>
            rw [hc] at hok
            dsimp only at hok
            by_cases hd : h - c < 0
            · rw [if_pos hd] at hok
              cases htd : st.timeDown with
              | none =>
                rw [htd] at hok
                dsimp only at hok
                exact (Res.noConfusion hok)
              | some td =>
                rw [htd] at hok
                dsimp only at hok
                cases hmv : move env cfg (-255) ((h - c) / (-(cfg.height / td))) st with
                | exc e s =>
                  rw [hmv] at hok
                  dsimp only at hok
                  exact (Res.noConfusion hok)
                | ok d s =>
                  rw [hmv] at hok
                  dsimp only at hok
                  injection hok with hr hst
                  rw [← hst]
            · rw [if_neg hd] at hok
              cases htu : st.timeUp with
              | none =>
                rw [htu] at hok
                dsimp only at hok
                exact (Res.noConfusion hok)
              | some tu =>
                rw [htu] at hok
                dsimp only at hok
                cases hmv : move env cfg 255 ((h - c) / (cfg.height / tu)) st with
                | exc e s =>
                  rw [hmv] at hok
                  dsimp only at hok
                  exact (Res.noConfusion hok)
                | ok d s =>
                  rw [hmv] at hok
                  dsimp only at hok
                  injection hok with hr hst
                  rw [← hst]
        · cases hc : st.currentHeightM with
          | none =>
            rw [hc] at hok
            dsimp only at hok
            exact (Res.noConfusion hok)
          | some c =>
            rw [hc] at hok
            dsimp only at hok
            by_cases hd : h - c < 0
            · rw [if_pos hd] at hok
              cases htd : st.timeDown with
              | none =>
                rw [htd] at hok
                dsimp only at hok
                exact (Res.noConfusion hok)
              | some td =>
                rw [htd] at hok
                dsimp only at hok
                cases hmv : move env cfg (-255) ((h - c) / (-(cfg.height / td))) st with
                | exc e s =>
                  rw [hmv] at hok
                  dsimp only at hok
                  exact (Res.noConfusion hok)
                | ok d s =>
                  rw [hmv] at hok
                  dsimp only at hok
                  injection hok with hr hst
                  exact hr.symm
            · rw [if_neg hd] at hok
              cases htu : st.timeUp with
              | none =>
                rw [htu] at hok
                dsimp only at hok
                exact (Res.noConfusion hok)
              | some tu =>
                rw [htu] at hok
                dsimp only at hok
                cases hmv : move env cfg 255 ((h - c) / (cfg.height / tu)) st with
                | exc e s =>
                  rw [hmv] at hok
                  dsimp only at hok
                  exact (Res.noConfusion hok)
                | ok d s =>
                  rw [hmv] at hok
                  dsimp only at hok
                  injection hok with hr hst
                  exact hr.symm

theorem sendSpeed_limit_top (env : Env) (cfg : Config) (v : Int) (st : LiftState)
    (hsock : st.sockOpen = true) (hv : 0 < v) (htop : env.hallTop st.now = true) :
    sendSpeed env cfg v st = (some .moving, {st with currentHeightM := some cfg.height}) := by
  unfold sendSpeed checkLimits
  simp [hsock, hv, htop]

theorem sendSpeed_limit_bottom (env : Env) (cfg : Config) (v : Int) (st : LiftState)
    (hsock : st.sockOpen = true) (hv : v < 0) (hbot : env.hallBottom st.now = true) :
    sendSpeed env cfg v st = (some .moving, {st with currentHeightM := some 0}) := by
  have hnv : ¬(0 < v) := by omega
  unfold sendSpeed checkLimits
  simp [hsock, hv, hbot, hnv]

/-! ### Claims -/

/-- C1: while connected, `_send_speed(v)` with `v > 0` and the top limit
sensor active, or `v < 0` and the bottom sensor active, raises the internal
limit signal (`_MovingException`, not a `LiftConnectionException`
communication failure) before any datagram is transmitted, and the `_move`
loop thereupon stops the episode by the limit regardless of the remaining
deadline `dur ≥ 0`. -/
theorem c1_limit_before_send (env : Env) (cfg : Config) (v : Int) (dur : ℚ)
    (st : LiftState) (hsock : st.sockOpen = true)
    (hlim : (0 < v ∧ env.hallTop st.now = true) ∨ (v < 0 ∧ env.hallBottom st.now = true))
    (hdur : 0 ≤ dur) :
    (sendSpeed env cfg v st).1 = some .moving ∧
    (sendSpeed env cfg v st).1 ≠ some .conn ∧
    (sendSpeed env cfg v st).2.sent = st.sent ∧
    (moveLoop env cfg v st.now dur st).1 = .limit := by
  have hnd : ¬((st.now : ℚ) + dur < (st.now : ℚ)) := by
    push_cast
    linarith
  rcases hlim with ⟨hv, htop⟩ | ⟨hv, hbot⟩
  · rw [sendSpeed_limit_top env cfg v st hsock hv htop]
    rw [moveLoop_limit_top env cfg v st.now dur st hsock hv htop hnd]
    exact ⟨rfl, by simp, rfl, rfl⟩
  · rw [sendSpeed_limit_bottom env cfg v st hsock hv hbot]
    by_cases htop : 0 < v ∧ env.hallTop st.now = true
    · exact absurd htop.1 (by omega)
    · rw [moveLoop_limit_bottom env cfg v st.now dur st hsock hv hbot htop hnd]
      exact ⟨rfl, by simp, rfl, rfl⟩

/-- Witness for C1: top sensor active, commanded speed `255`, 300 s of
deadline remaining. -/
theorem c1_witness :
    (sendSpeed envTop cfg0 255 stConn).1 = some .moving ∧
    (sendSpeed envTop cfg0 255 stConn).1 ≠ some .conn ∧
    (sendSpeed envTop cfg0 255 stConn).2.sent = stConn.sent ∧
    (moveLoop envTop cfg0 255 stConn.now 300 stConn).1 = .limit :=
  c1_limit_before_send envTop cfg0 255 300 stConn rfl (Or.inl ⟨by norm_num, rfl⟩)
    (by norm_num)

/-- C3 counterexample: `connect` with the source's default 10 s timeout
against a link that never answers raises `LiftConnectionException` — but the
mutual-exclusion lock is NOT still held: `connect` itself called
`disconnect`, so the final state has the lock released and the socket
closed, contrary to the claim that ownership remains held until the caller
disconnects. -/
theorem c3_counterexample :
    connect envQuiet cfg0 10 st0 =
      .exc .conn {st0 with now := 11, sent := [((0 : Nat), (0 : Int))]} ∧
    ({st0 with now := 11, sent := [((0 : Nat), (0 : Int))]} : LiftState).lockHeld = false ∧
    ({st0 with now := 11, sent := [((0 : Nat), (0 : Int))]} : LiftState).sockOpen = false := by
  refine ⟨?_, rfl, rfl⟩
  rw [connect_noresp envQuiet cfg0 10 st0 rfl (fun t => rfl) rfl rfl (by norm_num)]
  have h10 : Int.toNat ⌊(10 : ℚ)⌋ = 10 := by
    have hf : ⌊(10 : ℚ)⌋ = 10 := by norm_num
    rw [hf]
    rfl
  rw [h10]
  rfl

/-- C3 amended: when the handshake receives no acknowledgement within the
timeout, `connect` raises `LiftConnectionException` — but only after itself
calling `disconnect`: the socket is closed and the mutual-exclusion lock is
released before the exception reaches the caller (lift.py:134), so the
caller must NOT pair this failure path with another `disconnect`. -/
theorem c3_amended_connect_timeout (env : Env) (cfg : Config) (timeout : ℚ)
    (st : LiftState) (hwifi : env.wifiOk = true) (hres : ∀ t, env.resps t = [])
    (hsend : env.sendOk st.now = true) (hsp : st.currentSpeed = none)
    (ht0 : 0 ≤ timeout) :
    ∃ st2, connect env cfg timeout st = .exc .conn st2 ∧
      st2.lockHeld = false ∧ st2.sockOpen = false :=
  ⟨_, connect_noresp env cfg timeout st hwifi hres hsend hsp ht0, rfl, rfl⟩

/-- Witness for the amended C3 at the source's default timeout. -/
theorem c3_witness :
    ∃ st2, connect envQuiet cfg0 10 st0 = .exc .conn st2 ∧
      st2.lockHeld = false ∧ st2.sockOpen = false :=
  c3_amended_connect_timeout envQuiet cfg0 10 st0 rfl (fun t => rfl) rfl rfl
    (by norm_num)

/-- C5 counterexample: with every send failing (permanently unreachable
link) and quiet sensors, `calibrate()` COMPLETES — the claim that it stalls
indefinitely inside unbounded episodes is false: each episode is bounded by
the default `moving_time_s = 300.0`, and the bogus travel times 301 (ticks)
are recorded. -/
theorem c5_counterexample :
    (calibrate envDead cfg0 1 stConn).isOk = true ∧
    (calibrate envDead cfg0 1 stConn).state.timeUp = some 301 ∧
    (calibrate envDead cfg0 1 stConn).state.timeDown = some 301 := by
  obtain ⟨st2, h1, h2, h3⟩ := calibrate_dead envDead cfg0 (fun t => rfl) (fun t => rfl)
    (fun t => rfl) (fun t => rfl) (fun t => rfl) 0 stConn rfl
  rw [h1]
  exact ⟨rfl, h2, h3⟩

/-- C5 amended: calibration's descent and ascent episodes are bounded by the
source's default `moving_time_s = 300.0` (lift.py:262), not unbounded; with
a permanently unreachable actuator link (and inactive limit sensors)
`calibrate()` therefore completes instead of stalling, recording the
meaningless deadline-bound duration (301 ticks) as both travel times. -/
theorem c5_amended_calibrate_bounded (env : Env) (cfg : Config) (fuel : Nat)
    (st : LiftState)
    (hres : ∀ t, env.resps t = []) (hsend : ∀ t, env.sendOk t = false)
    (htopa : ∀ t, env.hallTop t = false) (hbota : ∀ t, env.hallBottom t = false)
    (hcharge : ∀ t, env.charging t = false) (hsock : st.sockOpen = true) :
    ∃ st2, calibrate env cfg (fuel + 1) st = .ok () st2 ∧
      st2.timeUp = some 301 ∧ st2.timeDown = some 301 :=
  calibrate_dead env cfg hres hsend htopa hbota hcharge fuel st hsock

/-- Witness for the amended C5 on the dead-link world. -/
theorem c5_witness :
    ∃ st2, calibrate envDead cfg0 1 stConn = .ok () st2 ∧
      st2.timeUp = some 301 ∧ st2.timeDown = some 301 :=
  c5_amended_calibrate_bounded envDead cfg0 0 stConn (fun t => rfl) (fun t => rfl)
    (fun t => rfl) (fun t => rfl) (fun t => rfl) rfl

/-- C2 amended: for a calibrated state not already at the target, whenever
`move_to(h)` returns normally the stored estimate is: the maximum height for
`h ≥ max` and `0` for `h ≤ 0` (there the limit's implied height is indeed
stored, by assignment); but for an interior target `0 < h < max` the stored
estimate is the dead-reckoned request `h` itself — even when the movement
episode was ended by a limit-sensor hit — the limit/estimate mismatch being
only logged (lift.py:362-369). -/
theorem c2_amended_estimate (env : Env) (cfg : Config) (fuel : Nat) (h : ℚ)
    (st : LiftState) (r : ℚ) (st2 : LiftState)
    (hcal : st.currentHeightM ≠ none) (hne : st.currentHeightM ≠ some h)
    (hok : moveTo env cfg fuel h st = .ok r st2) :
    (h ≥ cfg.height → st2.currentHeightM = some cfg.height) ∧
    (¬(h ≥ cfg.height) → h ≤ 0 → st2.currentHeightM = some 0) ∧
    (0 < h → h < cfg.height → st2.currentHeightM = some h) := by
  have hmain : moveToMain env cfg h st = .ok r st2 := by
    cases hc : st.currentHeightM with
    | none => exact absurd hc hcal
    | some c =>
      unfold moveTo at hok
      rw [hc] at hok
      exact hok
  rcases moveToMain_ok_estimate env cfg h st r st2 hmain with h1 | h2 | h3 | h4
  · exact absurd h1.1 hne
  · obtain ⟨_, hge, hest, _⟩ := h2
    exact ⟨fun _ => hest, fun hng _ => absurd hge hng,
      fun _ hlt => absurd hge (not_le.mpr hlt)⟩
  · obtain ⟨_, hng, hle, hest, _⟩ := h3
    exact ⟨fun hge => absurd hge hng, fun _ _ => hest,
      fun hpos _ => absurd hle (not_le.mpr hpos)⟩
  · obtain ⟨_, hng, hnle, hest, _⟩ := h4
    exact ⟨fun hge => absurd hge hng, fun _ hle => absurd hle hnle, fun _ _ => hest⟩

/-- C8: from a calibrated state, a normally returning `move_to(h)` at a
reachable height `0 ≤ h ≤ max` leaves the estimate at exactly `h`, so an
immediately repeated `move_to(h)` takes the short-circuit branch: it returns
`h` with the state (including the ghost command logs) completely unchanged —
motor commands are issued only by the first call.  When the state is already
at `h`, even the first call is the identity no-op. -/
theorem c8_moveTo_idempotent (env : Env) (cfg : Config) (fuel : Nat) (h : ℚ)
    (st : LiftState) (r : ℚ) (st2 : LiftState)
    (hcal : st.currentHeightM ≠ none) (h0 : 0 ≤ h) (hmax : h ≤ cfg.height)
    (hok : moveTo env cfg fuel h st = .ok r st2) :
    moveTo env cfg fuel h st2 = .ok h st2 ∧
    (st.currentHeightM = some h → st2 = st ∧ r = h) := by
  have hmain : moveToMain env cfg h st = .ok r st2 := by
    cases hc : st.currentHeightM with
    | none => exact absurd hc hcal
    | some c =>
      unfold moveTo at hok
      rw [hc] at hok
      exact hok
  have hest : st2.currentHeightM = some h := by
    rcases moveToMain_ok_estimate env cfg h st r st2 hmain with h1 | h2 | h3 | h4
    · rw [h1.2.2, h1.1]
    · obtain ⟨_, hge, hest, _⟩ := h2
      rw [hest]
      exact congrArg some (le_antisymm hmax hge).symm
    · obtain ⟨_, _, hle, hest, _⟩ := h3
      rw [hest]
      exact congrArg some (le_antisymm h0 hle)
    · exact h4.2.2.2.1
  refine ⟨moveTo_at_height env cfg fuel h st2 hest, ?_⟩
  intro heq
  have := moveToMain_eq_branch env cfg h st heq
  rw [this] at hmain
  injection hmain with h1 h2
  exact ⟨h2.symm, h1.symm⟩

/-- Witness for C8: the lift rests calibrated at 0 m and is asked for 0 m —
the first call is already the no-op and so is the repeat. -/
theorem c8_witness :
    moveTo envQuiet cfg0 0 0 stCal = .ok 0 stCal ∧
    (stCal.currentHeightM = some 0 → stCal = stCal ∧ (0 : ℚ) = 0) :=
  c8_moveTo_idempotent envQuiet cfg0 0 0 stCal 0 stCal
    (by intro hc; exact Option.noConfusion ((show stCal.currentHeightM = some 0 from rfl) ▸ hc))
    (by norm_num) (by norm_num [cfg0])
    (moveTo_at_height envQuiet cfg0 0 0 stCal rfl)

/-- C9: with a charging-indicator pin configured, an indicator that never
reads active and a structurally well-formed response stream, `dock()`
performs exactly the configured number of retries — each appending one
upward bump (255 for 0.5 s) and one downward bump (-255 for 1 s), with
their stop episodes, after the configured delay and re-check — and then
returns normally without raising. -/
theorem c9_dock_retries (env : Env) (cfg : Config) (st : LiftState)
    (hwf : WfResps env) (hpin : cfg.chargingPin ≠ none)
    (hcharge : ∀ t, env.charging t = false) :
    ∃ st2, dock env cfg st = .ok () st2 ∧
      st2.episodes = st.episodes ++ dockBumps cfg.dockingRetries :=
  dock_wf env cfg hwf hpin hcharge st

/-- Witness for C9 on the quiet world with the default configuration
(pin 13, 3 retries). -/
theorem c9_witness :
    ∃ st2, dock envQuiet cfg0 stCal = .ok () st2 ∧
      st2.episodes = stCal.episodes ++ dockBumps cfg0.dockingRetries :=
  c9_dock_retries envQuiet cfg0 stCal
    (fun t r hr => absurd hr (List.not_mem_nil r))
    (by intro hc; exact Option.noConfusion ((show cfg0.chargingPin = some 13 from rfl) ▸ hc))
    (fun t => rfl)

/-- Concrete interior `move_to` run with the top sensor permanently active:
the episode stops by the limit on its first tick (setting the estimate to
the maximum), but `move_to` then overwrites the estimate with the requested
interior height 5 (lift.py:359). -/
theorem moveTo_envTop_run :
    moveTo envTop cfg0 0 5 stCal =
      .ok 5 {stCal with currentHeightM := some 5, now := 2, episodes := [((255 : Int), (5 : ℚ)), ((0 : Int), (1 : ℚ))], sent := [((0 : Nat), (0 : Int)), ((1 : Nat), (0 : Int))]} := by
  have hcur : stCal.currentHeightM = some 0 := rfl
  unfold moveTo
  rw [hcur]
  show moveToMain envTop cfg0 5 stCal = _
  unfold moveToMain
  rw [if_neg (by
    rw [hcur]
    intro hcon
    injection hcon with hv
    norm_num at hv)]
  rw [if_neg (by
    show ¬((5 : ℚ) ≥ cfg0.height)
    rw [show cfg0.height = 10 from rfl]
    norm_num)]
  rw [if_neg (by norm_num)]
  rw [hcur]
  dsimp only
  rw [if_neg (by norm_num)]
  rw [show stCal.timeUp = some 10 from rfl]
  dsimp only
  have hdur : ((5 : ℚ) - 0) / (cfg0.height / 10) = 5 := by
    rw [show cfg0.height = 10 from rfl]
    norm_num
  rw [hdur]
  rw [move_limit_top envTop cfg0 255 5 stCal (fun t => rfl) (fun t => rfl) rfl
    (by norm_num) (fun t => rfl) (by norm_num)]
  rfl

/-- C2 counterexample: calibrated at the bottom of a 10 m lift with the top
sensor active, `move_to(5)` has its movement episode ended by a limit-sensor
hit (first conjunct shows that episode's loop result), yet when `move_to`
returns the stored estimate is `5` — the requested interior height — and not
the limit's implied height `10`, refuting the claim for `0 < h < max`. -/
theorem c2_counterexample :
    (moveLoop envTop cfg0 255 stCal.now 5 {stCal with episodes := [((255 : Int), (5 : ℚ))]}).1 = .limit ∧
    moveTo envTop cfg0 0 5 stCal =
      .ok 5 {stCal with currentHeightM := some 5, now := 2, episodes := [((255 : Int), (5 : ℚ)), ((0 : Int), (1 : ℚ))], sent := [((0 : Nat), (0 : Int)), ((1 : Nat), (0 : Int))]} ∧
    ((0 : ℚ) < 5 ∧ (5 : ℚ) < cfg0.height) ∧
    some (5 : ℚ) ≠ some cfg0.height := by
  refine ⟨?_, moveTo_envTop_run, ⟨by norm_num, ?_⟩, ?_⟩
  · rw [moveLoop_limit_top envTop cfg0 255 stCal.now 5
      {stCal with episodes := [((255 : Int), (5 : ℚ))]} rfl (by norm_num) rfl
      (by show ¬((stCal.now : ℚ) + 5 < (stCal.now : ℚ)); push_cast; linarith)]
  · show (5 : ℚ) < cfg0.height
    have hh : cfg0.height = 10 := rfl
    rw [hh]
    norm_num
  · have hh : cfg0.height = 10 := rfl
    rw [hh]
    intro hcon
    injection hcon with hv
    norm_num at hv

/-- Witness for the amended C2 on the same concrete run: the interior target
keeps the dead-reckoned estimate 5. -/
theorem c2_witness :
    ((5 : ℚ) ≥ cfg0.height →
      ({stCal with currentHeightM := some 5, now := 2, episodes := [((255 : Int), (5 : ℚ)), ((0 : Int), (1 : ℚ))], sent := [((0 : Nat), (0 : Int)), ((1 : Nat), (0 : Int))]} : LiftState).currentHeightM = some cfg0.height) ∧
    (¬((5 : ℚ) ≥ cfg0.height) → (5 : ℚ) ≤ 0 →
      ({stCal with currentHeightM := some 5, now := 2, episodes := [((255 : Int), (5 : ℚ)), ((0 : Int), (1 : ℚ))], sent := [((0 : Nat), (0 : Int)), ((1 : Nat), (0 : Int))]} : LiftState).currentHeightM = some 0) ∧
    ((0 : ℚ) < 5 → (5 : ℚ) < cfg0.height →
      ({stCal with currentHeightM := some 5, now := 2, episodes := [((255 : Int), (5 : ℚ)), ((0 : Int), (1 : ℚ))], sent := [((0 : Nat), (0 : Int)), ((1 : Nat), (0 : Int))]} : LiftState).currentHeightM = some 5) :=
  c2_amended_estimate envTop cfg0 0 5 stCal 5 _
    (by intro hc; exact Option.noConfusion ((show stCal.currentHeightM = some 0 from rfl) ▸ hc))
    (by intro hc
        have : some (0 : ℚ) = some 5 := (show stCal.currentHeightM = some 0 from rfl) ▸ hc
        injection this with hv
        norm_num at hv)
    moveTo_envTop_run

/-- Concrete opening-bump run of `calibrate`: bottom sensor active until
time 4, quiet live link.  One bump episode runs — with speed `+255`
(upward) — then the sensor reads inactive and the loop exits. -/
theorem bumpLoop_envBumpy_run :
    bumpLoop envBumpy cfg0 2 stConn =
      .ok () {stConn with now := 4, lastResponseTs := none, episodes := [((255 : Int), (1 : ℚ)), ((0 : Int), (1 : ℚ))], sent := [((0 : Nat), (255 : Int)), (1, 255), (2, 0), (3, 0)]} := by
  show bumpLoop envBumpy cfg0 (1 + 1) stConn = _
  unfold bumpLoop
  rw [if_pos (show envBumpy.hallBottom stConn.now = true from rfl)]
  rw [move_steady_live envBumpy cfg0 255 (fun t => rfl) (fun _ => fun t => rfl)
    (fun hv => absurd hv (by norm_num)) (fun t => rfl) 1 (by norm_num) stConn rfl
    (by norm_num)]
  dsimp only
  rw [Int.floor_one]
  exact bumpLoop_exit envBumpy cfg0 0 _ rfl

/-- C6 counterexample: at the start of calibration with the bottom sensor
active, the short one-second bump episodes the source issues have speed
`+255` — upward — not a negative (downward) speed as claimed. -/
theorem c6_counterexample :
    bumpLoop envBumpy cfg0 2 stConn =
      .ok () {stConn with now := 4, lastResponseTs := none, episodes := [((255 : Int), (1 : ℚ)), ((0 : Int), (1 : ℚ))], sent := [((0 : Nat), (255 : Int)), (1, 255), (2, 0), (3, 0)]} ∧
    ¬((255 : Int) < 0) :=
  ⟨bumpLoop_envBumpy_run, by norm_num⟩

/-- C6 amended: while the bottom limit sensor reads active, calibrate's
opening bump loop (lift.py:395-396) repeatedly issues short one-second
episodes with speed `+255` — upward, not downward — each followed by its
zero-speed stop episode, until the sensor reads inactive (the state at a
normal exit has an inactive bottom sensor and an episode log extended only
by `(255, 1)` bumps and `(0, 1)` stops). -/
theorem c6_amended_upward_bumps (env : Env) (cfg : Config) (hwf : WfResps env) :
    ∀ (fuel : Nat) (st st2 : LiftState) (u : Unit),
      bumpLoop env cfg fuel st = .ok u st2 →
      env.hallBottom st2.now = false ∧
      ∃ l, st2.episodes = st.episodes ++ l ∧
        ∀ p ∈ l, p = ((255 : Int), (1 : ℚ)) ∨ p = ((0 : Int), (1 : ℚ)) := by
  intro fuel
  induction fuel with
  | zero =>
    intro st st2 u hok
    exact (Res.noConfusion hok)
  | succ f ih =>
    intro st st2 u hok
    unfold bumpLoop at hok
    by_cases hb : env.hallBottom st.now = true
    · rw [if_pos hb] at hok
      obtain ⟨d, stA, hA, hA2, _, _, _⟩ := move_wf env cfg hwf 255 (by norm_num) 1 st
      rw [hA] at hok
      dsimp only at hok
      obtain ⟨hend, l, hl, hlp⟩ := ih stA st2 u hok
      refine ⟨hend, [((255 : Int), (1 : ℚ)), ((0 : Int), (1 : ℚ))] ++ l, ?_, ?_⟩
      · rw [hl, hA2]
        simp
      · intro p hp
        rcases List.mem_append.mp hp with hp2 | hp2
        · rcases List.mem_cons.mp hp2 with hp3 | hp3
          · exact Or.inl hp3
          · rcases List.mem_cons.mp hp3 with hp4 | hp4
            · exact Or.inr hp4
            · exact absurd hp4 (List.not_mem_nil p)
        · exact hlp p hp2
    · rw [if_neg hb] at hok
      injection hok with hu hst
      have hbf : env.hallBottom st.now = false := by
        revert hb
        cases env.hallBottom st.now <;> simp
      refine ⟨by rw [← hst]; exact hbf, [], by rw [← hst]; simp, ?_⟩
      intro p hp
      exact absurd hp (List.not_mem_nil p)

/-- Witness for the amended C6 on the concrete bumpy run. -/
theorem c6_witness :
    envBumpy.hallBottom ({stConn with now := 4, lastResponseTs := none, episodes := [((255 : Int), (1 : ℚ)), ((0 : Int), (1 : ℚ))], sent := [((0 : Nat), (255 : Int)), (1, 255), (2, 0), (3, 0)]} : LiftState).now = false ∧
    ∃ l, ({stConn with now := 4, lastResponseTs := none, episodes := [((255 : Int), (1 : ℚ)), ((0 : Int), (1 : ℚ))], sent := [((0 : Nat), (255 : Int)), (1, 255), (2, 0), (3, 0)]} : LiftState).episodes = stConn.episodes ++ l ∧
      ∀ p ∈ l, p = ((255 : Int), (1 : ℚ)) ∨ p = ((0 : Int), (1 : ℚ)) :=
  c6_amended_upward_bumps envBumpy cfg0
    (fun t r hr => absurd hr (List.not_mem_nil r)) 2 stConn _ ()
    bumpLoop_envBumpy_run

/-- C4 at a failing input: the three-token datagram `"set 5 5"` arriving
during a move raises an uncaught `ValueError` (tuple unpacking,
lift.py:250), which terminates the movement episode even though no limit
sensor was hit and 300 s of deadline remained — contradicting the claim
that communication problems never end an episode.  The enclosing `_move`
call propagates the exception instead of returning. -/
theorem c4_malformed_crash :
    (moveLoop envLongResp cfg0 255 0 300 stConn).1 = .crash .valueErr ∧
    (move envLongResp cfg0 255 300 stConn).isOk = false := by
  have htick1 : tickBody envLongResp cfg0 255 stConn =
      .crash .valueErr {stConn with sent := [((0 : Nat), (255 : Int))], lastResponseTs := some 0} := rfl
  dsimp only at htick1
  have hndo : ¬(((0 : Nat) : ℚ) + 300 < (stConn.now : ℚ)) := by
    rw [show stConn.now = 0 from rfl]
    norm_num
  have hndi : ¬((stConn.now : ℚ) + 300 < (stConn.now : ℚ)) := by
    push_cast
    linarith
  constructor
  · rw [moveLoop_eq, if_neg hndo, htick1]
  · have htick2 : tickBody envLongResp cfg0 255 {stConn with episodes := stConn.episodes ++ [((255 : Int), (300 : ℚ))]} =
        .crash .valueErr {stConn with episodes := stConn.episodes ++ [((255 : Int), (300 : ℚ))], sent := [((0 : Nat), (255 : Int))], lastResponseTs := some 0} := rfl
    dsimp only at htick2
    unfold move
    dsimp only
    rw [moveLoop_eq]
    dsimp only
    rw [if_neg hndi, htick2]
    rfl

/-- C7 at a failing input: the single-token datagram `"set"` makes
`_recv_responses` raise an uncaught `ValueError` (tuple unpacking,
lift.py:250) — not the `LiftConnectionException` communication error the
claim requires for malformed responses — and it crashes the surrounding
movement loop. -/
theorem c7_malformed_valueerror :
    recvResponses envShortResp 0 stConn =
      (some .valueErr, {stConn with lastResponseTs := some 0}) ∧
    some LiftErr.valueErr ≠ some LiftErr.conn ∧
    (moveLoop envShortResp cfg0 255 0 300 stConn).1 = .crash .valueErr := by
  refine ⟨rfl, by simp, ?_⟩
  have htick : tickBody envShortResp cfg0 255 stConn =
      .crash .valueErr {stConn with sent := [((0 : Nat), (255 : Int))], lastResponseTs := some 0} := rfl
  dsimp only at htick
  have hndo : ¬(((0 : Nat) : ℚ) + 300 < (stConn.now : ℚ)) := by
    rw [show stConn.now = 0 from rfl]
    norm_num
  rw [moveLoop_eq, if_neg hndo, htick]

/-- C10: whatever the limit sensors read, sending speed 0 never raises the
limit signal and never modifies the height estimate; consequently the final
stop command of every movement episode goes through even while the lift
rests on a limit sensor — demonstrated by the last conjunct: with the top
sensor permanently active, `_move` still returns normally and a zero-speed
datagram is transmitted during its stop episode. -/
theorem c10_stop_always_allowed (env : Env) (cfg : Config) (st : LiftState)
    (v : Int) (dur : ℚ) :
    checkLimits env cfg 0 st = (none, st) ∧
    (sendSpeed env cfg 0 st).1 ≠ some .moving ∧
    (sendSpeed env cfg 0 st).2.currentHeightM = st.currentHeightM ∧
    ((∀ t, env.resps t = []) → (∀ t, env.sendOk t = true) →
      (∀ t, env.hallTop t = true) → st.sockOpen = true → 0 < v → 0 ≤ dur →
      ∃ st2, move env cfg v dur st = .ok 0 st2 ∧ (st.now, (0 : Int)) ∈ st2.sent) := by
  have hcl := checkLimits_zero env cfg st
  refine ⟨hcl, ?_, ?_, ?_⟩
  · by_cases hsock : st.sockOpen = true
    · cases hsend : env.sendOk st.now with
      | true =>
        rw [sendSpeed_ok env cfg 0 st hsock hcl hsend]
        simp
      | false =>
        rw [sendSpeed_fail env cfg 0 st hsock hcl hsend]
        simp
    · have hs : st.sockOpen = false := by
        revert hsock
        cases st.sockOpen <;> simp
      unfold sendSpeed
      rw [hs]
      simp
  · by_cases hsock : st.sockOpen = true
    · cases hsend : env.sendOk st.now with
      | true =>
        rw [sendSpeed_ok env cfg 0 st hsock hcl hsend]
      | false =>
        rw [sendSpeed_fail env cfg 0 st hsock hcl hsend]
    · have hs : st.sockOpen = false := by
        revert hsock
        cases st.sockOpen <;> simp
      unfold sendSpeed
      rw [hs]
      simp
  · intro hres hsend htop hsock hv hdur
    refine ⟨_, move_limit_top env cfg v dur st hres hsend hsock hv htop hdur, ?_⟩
    show (st.now, (0 : Int)) ∈ st.sent ++ sentRun 0 st.now 2
    refine List.mem_append.mpr (Or.inr ?_)
    rw [show sentRun 0 st.now 2 = (st.now, (0 : Int)) :: sentRun 0 (st.now + 1) 1 from rfl]
    exact List.mem_cons_self _ _

/-- Witness for C10: top sensor permanently active, commanded full speed up
for 300 s. -/
theorem c10_witness :
    checkLimits envTop cfg0 0 stConn = (none, stConn) ∧
    (sendSpeed envTop cfg0 0 stConn).1 ≠ some .moving ∧
    (sendSpeed envTop cfg0 0 stConn).2.currentHeightM = stConn.currentHeightM ∧
    (∃ st2, move envTop cfg0 255 300 stConn = .ok 0 st2 ∧
      (stConn.now, (0 : Int)) ∈ st2.sent) := by
  obtain ⟨h1, h2, h3, h4⟩ := c10_stop_always_allowed envTop cfg0 stConn 255 300
  exact ⟨h1, h2, h3, h4 (fun t => rfl) (fun t => rfl) (fun t => rfl) rfl
    (by norm_num) (by norm_num)⟩

end Sensorproxy
